import Mathlib

/-!
# goLog: a shallow embedding of `goLog.go`

The Go package `goLog` is a dual-sink logger: a `Logger` owns an optional file
writer, a console writer and a stopwatch baseline (`startTime`).  This file
embeds the package in Lean and proves properties of it.

Conventions of the embedding.

* Go strings are modelled by Lean `String`s (sequences of Unicode scalar
  values); byte sequences that are not valid UTF-8 are outside the model.
* A `time.Time` is an `Int`: nanoseconds since the zero instant
  (January 1, year 1, 00:00:00 UTC), so that `IsZero` is equality with `0`.
  The clock reading that `time.Now()` returns is an explicit argument.
* A `time.Duration` is an `Int` number of nanoseconds in the `int64` range.
* Mutation of `*Logger` is explicit state passing; what the two `log.Logger`
  writers are asked to print is kept as a chronological list of lines.
* Library functions whose tables or algorithms are not part of the package
  (the Unicode upper-case table, `fmt.Sprintf` on an arbitrary format,
  `spew.Sdump`, `os.OpenFile`) are parameters.
-/

namespace goLog

/-! ## Standard-library models -/

/-- Upper-casing of one rune, Go's `unicode.ToUpper`: ASCII letters are handled
inline, every rune above `MaxASCII` is looked up in the Unicode case table,
which is the parameter `upperTable`. -/
def unicodeToUpper (upperTable : Char → Char) (r : Char) : Char :=
  if r.toNat ≤ 0x7F then
    if 'a'.toNat ≤ r.toNat ∧ r.toNat ≤ 'z'.toNat then Char.ofNat (r.toNat - ('a'.toNat - 'A'.toNat))
    else r
  else upperTable r

/-- Go's `strings.ToUpper`: every rune of the string mapped by `unicode.ToUpper`. -/
def ToUpper (upperTable : Char → Char) (s : String) : String :=
  String.mk (s.data.map (unicodeToUpper upperTable))

/-- Go's `unicode.IsSpace`: the Latin-1 white space characters and the other
code points with the Unicode `White_Space` property. -/
def IsSpace (r : Char) : Bool :=
  let n := r.toNat
  if n ≤ 0xFF then
    n = 0x09 || n = 0x0A || n = 0x0B || n = 0x0C || n = 0x0D || n = 0x20 || n = 0x85 || n = 0xA0
  else
    n = 0x1680 || (0x2000 ≤ n && n ≤ 0x200A) || n = 0x2028 || n = 0x2029 || n = 0x202F
      || n = 0x205F || n = 0x3000

/-- Go's `strings.TrimSpace`: the string without its leading and trailing
white space, as `unicode.IsSpace` defines it. -/
def TrimSpace (s : String) : String :=
  String.mk ((s.data.dropWhile IsSpace).reverse.dropWhile IsSpace).reverse

/-- One nanosecond count per unit, as in package `time`. -/
def Nanosecond : Int := 1
def Microsecond : Int := 1000 * Nanosecond
def Millisecond : Int := 1000 * Microsecond
def Second : Int := 1000 * Millisecond

/-- The bounds of `time.Duration`, an `int64`. -/
def maxDuration : Int := 2 ^ 63 - 1
def minDuration : Int := -(2 ^ 63)

/-- Go's `Time.IsZero`. -/
def IsZero (t : Int) : Bool := t == 0

/-- Go's `time.Since(t)`, that is `time.Now().Sub(t)` with `now` the reading of
the clock: the difference of the two instants, replaced by the largest or
smallest `Duration` when it does not fit in one. -/
def Since (now t : Int) : Int :=
  let d := now - t
  if d > maxDuration then maxDuration
  else if d < minDuration then minDuration
  else d

/-- Go's `Duration.Truncate`: rounding toward zero to a multiple of `m`
(`%` is Go's remainder, which truncates toward zero). -/
def Truncate (d m : Int) : Int :=
  if m ≤ 0 then d else d - Int.tmod d m

/-- The decimal digit `d` as a character (`byte(d) + '0'`). -/
def digitChar (d : Nat) : Char := Char.ofNat (d + '0'.toNat)

/-- The loop of `fmtFrac` in package `time`: `prec` low digits of `v` are put in
front of `buf`, trailing zeros omitted. Returns the buffer, `v / 10^prec` and
whether a digit was printed. -/
def fmtFracLoop : Nat → Nat → Bool → List Char → List Char × Nat × Bool
  | 0, v, print, buf => (buf, v, print)
  | i + 1, v, print, buf =>
    let digit := v % 10
    let print := print || digit != 0
    let buf := if print then digitChar digit :: buf else buf
    fmtFracLoop i (v / 10) print buf

/-- Go's `fmtFrac`: the fraction of `v / 10^prec` in front of `buf`, with the
decimal point unless the fraction is zero. -/
def fmtFrac (buf : List Char) (v : Nat) (prec : Nat) : List Char × Nat :=
  let (buf, v, print) := fmtFracLoop prec v false buf
  (if print then '.' :: buf else buf, v)

/-- The loop `for v > 0` of `fmtInt`; `fuel` bounds the number of iterations. -/
def fmtIntLoop : Nat → Nat → List Char → List Char
  | 0, _, buf => buf
  | fuel + 1, v, buf =>
    if v > 0 then fmtIntLoop fuel (v / 10) (digitChar (v % 10) :: buf) else buf

/-- Go's `fmtInt`: the decimal digits of `v` in front of `buf`. The loop runs at
most `v` times, so `v` is enough fuel. -/
def fmtInt (buf : List Char) (v : Nat) : List Char :=
  if v = 0 then '0' :: buf else fmtIntLoop v v buf

/-- Go's `Duration.String`: the duration as `72h3m0.5s`, with a smaller unit
(`ms`, `µs`, `ns`) below one second, and `0s` for zero. -/
def Duration.String (d : Int) : String :=
  let u := d.natAbs
  let neg := d < 0
  let buf : List Char :=
    if u < Second.natAbs then
      if u = 0 then ['0', 's']
      else if u < Microsecond.natAbs then
        let (buf, u) := fmtFrac ['n', 's'] u 0
        fmtInt buf u
      else if u < Millisecond.natAbs then
        let (buf, u) := fmtFrac ['µ', 's'] u 3
        fmtInt buf u
      else
        let (buf, u) := fmtFrac ['m', 's'] u 6
        fmtInt buf u
    else
      let (buf, u) := fmtFrac ['s'] u 9
      let buf := fmtInt buf (u % 60)
      let u := u / 60
      if u > 0 then
        let buf := fmtInt ('m' :: buf) (u % 60)
        let u := u / 60
        if u > 0 then fmtInt ('h' :: buf) u else buf
      else buf
  String.mk (if neg then '-' :: buf else buf)

/-! ## The package -/

def Reset : String := "\x1b[0m"
def Red : String := "\x1b[31m"
def Green : String := "\x1b[32m"
def Cyan : String := "\x1b[36m"
def Yellow : String := "\x1b[33m"
def Blue : String := "\x1b[94m"

/-- An open file, as `os.OpenFile` returns it. -/
structure File where
  fd : Nat
  name : String
  deriving DecidableEq, Repr

/-- The destination of a `log.Logger`. -/
inductive Output where
  | stdout
  | file (f : File)
  deriving DecidableEq, Repr

/-- A `log.Logger` as `log.New(out, prefix, flag)` builds it. -/
structure LogLogger where
  out : Output
  pfx : String
  flag : Nat
  deriving DecidableEq, Repr

/-- The struct `Logger`; a `nil` pointer is `none`, the zero `time.Time` is `0`. -/
structure Logger where
  fileLogger : Option LogLogger
  screenLogger : Option LogLogger
  startTime : Int
  deriving DecidableEq, Repr

/-- The method `format`: level prefix and optional colour. Returns the formatted
string and the logger after the call (the `TIME` level sets the baseline);
`now` is what `time.Now()` returns during the call. -/
def format (upperTable : Char → Char) (now : Int) (l : Logger) (level msg : String)
    (colorize : Bool) : String × Logger :=
  let level := ToUpper upperTable level
  if level = "INFO" then
    let pfx := "  [INFO]"
    let pfx := if colorize then Cyan ++ pfx ++ Reset else pfx
    (pfx ++ " " ++ msg, l)
  else if level = "WARN" then
    let pfx := "  [WARN]"
    let pfx := if colorize then Yellow ++ pfx ++ Reset else pfx
    (pfx ++ " " ++ msg, l)
  else if level = "ERROR" then
    let pfx := " [ERROR]"
    let pfx := if colorize then Red ++ pfx ++ Reset else pfx
    (pfx ++ " " ++ msg, l)
  else if level = "FATAL" then
    let pfx := " [FATAL]"
    let pfx := if colorize then Red ++ pfx ++ Reset else pfx
    (pfx ++ " " ++ msg, l)
  else if level = "DEBUG" then
    let pfx := " [DEBUG]"
    let pfx := if colorize then Blue ++ pfx ++ Reset else pfx
    (pfx ++ " " ++ msg, l)
  else if level = "TIME" then
    let pfx := "[TIMING]"
    let pfx := if colorize then Green ++ pfx ++ Reset else pfx
    if IsZero l.startTime then
      (pfx ++ " " ++ (msg ++ " (start)"), { l with startTime := now })
    else
      let elapsed := Since now l.startTime
      (pfx ++ " " ++ (msg ++ " (+" ++ Duration.String (Truncate elapsed Millisecond) ++ ")"), l)
  else
    ("   [LOG]" ++ " " ++ msg, l)

/-- Which of the two writers of a `Logger` a line was printed through. -/
inductive Sink where
  | file
  | screen
  deriving DecidableEq, Repr

/-- One call of `Println` on a writer: the writer and the string handed to it.
The writer itself puts its date and time header in front and a newline behind. -/
structure Line where
  sink : Sink
  text : String
  deriving DecidableEq, Repr

/-- A logger together with everything printed so far, oldest line first. -/
structure State where
  logger : Logger
  printed : List Line
  deriving DecidableEq, Repr

/-- How a call ends: it returns to its caller, the process exits with a status
(`os.Exit`), or the goroutine panics (a method called on a `nil` writer). -/
inductive Exec (σ : Type) where
  | returns (s : σ)
  | exits (code : Int) (s : σ)
  | panics (s : σ)
  deriving DecidableEq, Repr

/-- Sequencing of two calls: the second runs only if the first returns. -/
def Exec.bind {σ : Type} (r : Exec σ) (f : σ → Exec σ) : Exec σ :=
  match r with
  | .returns s => f s
  | .exits code s => .exits code s
  | .panics s => .panics s

/-- Flags of package `os` (Linux values) and of package `log`. -/
def O_WRONLY : Nat := 0x1
def O_CREATE : Nat := 0x40
def O_APPEND : Nat := 0x400
def Ldate : Nat := 1
def Ltime : Nat := 2
def Lshortfile : Nat := 16

/-- The function `New`. `OpenFile` is `os.OpenFile` acting on the file system
`fs`: it returns the handle or the error, and the file system after the call. -/
def New {FS E : Type} (OpenFile : FS → String → Nat → Nat → Except E File × FS) (fs : FS)
    (logFilePath : String) : Except E Logger × FS :=
  let build (fileLogger : Option LogLogger) : Logger :=
    { fileLogger := fileLogger
      screenLogger := some ⟨Output.stdout, "", Ldate ||| Ltime⟩
      startTime := 0 }
  if logFilePath ≠ "" then
    match OpenFile fs logFilePath (O_APPEND ||| O_CREATE ||| O_WRONLY) 0o644 with
    | (.error err, fs) => (.error err, fs)
    | (.ok file, fs) =>
      (.ok (build (some ⟨Output.file file, "", Ldate ||| Ltime ||| Lshortfile⟩)), fs)
  else
    (.ok (build none), fs)

/-- The method `ToFile`: a formatted line on the file writer, when there is one. -/
def ToFile (upperTable : Char → Char) (now : Int) (s : State) (level msg : String) :
    Exec State :=
  match s.logger.fileLogger with
  | some _ =>
    let r := format upperTable now s.logger level msg false
    .returns { logger := r.2, printed := s.printed ++ [⟨Sink.file, r.1⟩] }
  | none => .returns s

/-- The method `ToScreen`: the formatted, coloured and trimmed line on the screen
writer. `Println` on a `nil` screen writer panics, after `format` has run. -/
def ToScreen (upperTable : Char → Char) (now : Int) (s : State) (level msg : String) :
    Exec State :=
  let r := format upperTable now s.logger level msg true
  match r.2.screenLogger with
  | some _ => .returns { logger := r.2, printed := s.printed ++ [⟨Sink.screen, TrimSpace r.1⟩] }
  | none => .panics { logger := r.2, printed := s.printed }

/-- The method `ToBoth`: `ToFile`, then `ToScreen`. The clock reads `now₁` during
the first call and `now₂` during the second. -/
def ToBoth (upperTable : Char → Char) (now₁ now₂ : Int) (s : State) (level msg : String) :
    Exec State :=
  (ToFile upperTable now₁ s level msg).bind fun s => ToScreen upperTable now₂ s level msg

/-- The method `ResetTimer`: the baseline becomes the zero time. -/
def ResetTimer (l : Logger) : Logger :=
  { l with startTime := 0 }

/-- The method `Fatal`. `sprintf` is `fmt.Sprintf`, `Val` the type of the values
passed as `any`; `logFn` is a Go function of two strings acting on the state. -/
def Fatal {Val : Type} (upperTable : Char → Char) (sprintf : String → List Val → String)
    (now₁ now₂ : Int) (s : State) (_logFn : String → String → State → Exec State)
    (fmt : String) (v : List Val) : Exec State :=
  let msg := sprintf fmt v
  (ToBoth upperTable now₁ now₂ s "FATAL" msg).bind fun s => .exits 1 s

/-- The method `Debug`. `sdump` is `spew.Sdump`. -/
def Debug {Val : Type} (upperTable : Char → Char) (sdump : List Val → String) (now : Int)
    (s : State) (v : List Val) : Exec State :=
  ToScreen upperTable now s "DEBUG" (sdump v)

/-- A small file system for examples: the names of the files that exist. Opening
`/` fails (it is a directory), opening anything else succeeds and creates it. -/
def exampleOpenFile (fs : List String) (name : String) (_flag _perm : Nat) :
    Except String File × List String :=
  if name = "/" then (.error "open /: is a directory", fs)
  else (.ok ⟨3, name⟩, if name ∈ fs then fs else name :: fs)

/-- The lines printed through the file writer, oldest first. -/
def fileLines (printed : List Line) : List String :=
  (printed.filter fun p => p.sink = Sink.file).map Line.text

/-- The lines printed through the screen writer, oldest first. -/
def screenLines (printed : List Line) : List String :=
  (printed.filter fun p => p.sink = Sink.screen).map Line.text

/-- The state a call ends in, however it ends. -/
def Exec.final {σ : Type} : Exec σ → σ
  | .returns s => s
  | .exits _ s => s
  | .panics s => s

/-- One call of a client on its logger, with the clock readings during the call.
(`Fatal` is not among them: nothing follows it.) -/
inductive Call (Val : Type) where
  | toFile (now : Int) (level msg : String)
  | toScreen (now : Int) (level msg : String)
  | toBoth (now₁ now₂ : Int) (level msg : String)
  | resetTimer
  | debug (now : Int) (v : List Val)

/-- The effect of one call. -/
def Call.run {Val : Type} (upperTable : Char → Char) (sdump : List Val → String) :
    Call Val → State → Exec State
  | .toFile now level msg, s => ToFile upperTable now s level msg
  | .toScreen now level msg, s => ToScreen upperTable now s level msg
  | .toBoth now₁ now₂ level msg, s => ToBoth upperTable now₁ now₂ s level msg
  | .resetTimer, s => .returns { s with logger := ResetTimer s.logger }
  | .debug now v, s => Debug upperTable sdump now s v

/-- A finite sequence of calls, one after the other. -/
def runCalls {Val : Type} (upperTable : Char → Char) (sdump : List Val → String) :
    List (Call Val) → State → Exec State
  | [], s => .returns s
  | c :: cs, s => (c.run upperTable sdump s).bind (runCalls upperTable sdump cs)

/-! ## Printed lines by writer -/

theorem fileLines_append (p q : List Line) : fileLines (p ++ q) = fileLines p ++ fileLines q := by
  simp [fileLines]

theorem screenLines_append (p q : List Line) :
    screenLines (p ++ q) = screenLines p ++ screenLines q := by
  simp [screenLines]

/-! ## Library facts: elapsed time, truncation, trimming -/

theorem Since_of_le (now t : Int) (h : t ≤ now) :
    Since now t = min (now - t) 9223372036854775807 := by
  unfold Since maxDuration minDuration
  simp only []
  split_ifs <;> omega

theorem Truncate_ms_of_nonneg (e : Int) (h : 0 ≤ e) :
    Truncate e Millisecond = e / 1000000 * 1000000 := by
  unfold Truncate Millisecond Microsecond Nanosecond
  rw [if_neg (by norm_num), Int.tmod_eq_emod h (by norm_num)]
  omega

/-- The loop of `fmtInt` gives the same digits with any fuel that is at least `v`:
the fuel `fmtInt` passes never runs out before `v` reaches zero. -/
theorem fmtIntLoop_fuel (f₁ : Nat) : ∀ (f₂ v : Nat) (buf : List Char), v ≤ f₁ → v ≤ f₂ →
    fmtIntLoop f₁ v buf = fmtIntLoop f₂ v buf := by
  induction f₁ with
  | zero =>
    intro f₂ v buf h₁ _
    have hv : v = 0 := by omega
    subst hv
    cases f₂ <;> simp [fmtIntLoop]
  | succ n ih =>
    intro f₂ v buf h₁ h₂
    cases f₂ with
    | zero =>
      have hv : v = 0 := by omega
      subst hv
      simp [fmtIntLoop]
    | succ k =>
      simp only [fmtIntLoop]
      split_ifs with hpos
      · exact ih k (v / 10) _ (by omega) (by omega)
      · rfl

/-- With enough fuel the loop of `fmtInt` writes the decimal digits of `v`, most
significant first, in front of the buffer. -/
theorem fmtIntLoop_digits (f : Nat) : ∀ (v : Nat) (buf : List Char), v ≤ f →
    fmtIntLoop f v buf = ((Nat.digits 10 v).reverse.map digitChar) ++ buf := by
  induction f with
  | zero =>
    intro v buf h
    have hv : v = 0 := by omega
    subst hv
    simp [fmtIntLoop]
  | succ n ih =>
    intro v buf h
    simp only [fmtIntLoop]
    split_ifs with hpos
    · rw [ih (v / 10) _ (by omega), Nat.digits_def' (by norm_num) hpos]
      simp
    · have hv : v = 0 := by omega
      subst hv
      simp

/-- The function `fmtInt` writes `0` for zero and the decimal digits of `v` otherwise. -/
theorem fmtInt_digits (buf : List Char) (v : Nat) :
    fmtInt buf v
      = (if v = 0 then ['0'] else (Nat.digits 10 v).reverse.map digitChar) ++ buf := by
  unfold fmtInt
  split_ifs with h
  · rfl
  · exact fmtIntLoop_digits v v buf le_rfl

theorem TrimSpace_data (s : String) :
    (TrimSpace s).data = List.rdropWhile IsSpace (List.dropWhile IsSpace s.data) := rfl

/-- What `TrimSpace` removes is white space only, and what it leaves neither
starts nor ends with white space. -/
theorem TrimSpace_spec (s : String) :
    ∃ pre post : List Char, s.data = pre ++ (TrimSpace s).data ++ post
      ∧ (∀ c ∈ pre, IsSpace c = true) ∧ (∀ c ∈ post, IsSpace c = true)
      ∧ (∀ c, (TrimSpace s).data.head? = some c → IsSpace c = false)
      ∧ (∀ c, (TrimSpace s).data.getLast? = some c → IsSpace c = false) := by
  rw [TrimSpace_data]
  generalize ha : List.dropWhile IsSpace s.data = a
  have hsplit : a = List.rdropWhile IsSpace a ++ List.rtakeWhile IsSpace a := by
    have h := congrArg List.reverse (List.takeWhile_append_dropWhile IsSpace a.reverse)
    rw [List.reverse_append, List.reverse_reverse] at h
    exact h.symm
  refine ⟨List.takeWhile IsSpace s.data, List.rtakeWhile IsSpace a, ?_, ?_, ?_, ?_, ?_⟩
  · rw [List.append_assoc, ← hsplit, ← ha, List.takeWhile_append_dropWhile]
  · intro c hc
    exact List.mem_takeWhile_imp hc
  · intro c hc
    exact List.mem_rtakeWhile_imp hc
  · intro c hc
    obtain ⟨t, ht⟩ := List.rdropWhile_prefix IsSpace (l := a)
    cases hT : List.rdropWhile IsSpace a with
    | nil => rw [hT] at hc; simp at hc
    | cons x rest =>
      rw [hT] at hc ht
      simp only [List.head?_cons, Option.some.injEq] at hc
      subst hc
      have hne : List.dropWhile IsSpace s.data ≠ [] := by
        rw [ha, ← ht]; simp
      have h := List.head_dropWhile_not IsSpace s.data hne
      have hh : (List.dropWhile IsSpace s.data).head hne = x := by
        have : List.dropWhile IsSpace s.data = x :: (rest ++ t) := by rw [ha, ← ht]; rfl
        simp [this]
      rw [hh] at h
      exact h
  · intro c hc
    have hne : List.rdropWhile IsSpace a ≠ [] := by
      intro h; rw [h] at hc; simp at hc
    have h := List.rdropWhile_last_not IsSpace a hne
    rw [List.getLast?_eq_getLast _ hne] at hc
    simp only [Option.some.injEq] at hc
    rw [hc] at h
    simpa using h


/-- Trailing white space is cut from the right part only when the left part ends
with a character that is not white space. -/
theorem rdropWhile_append_of_last (p : List Char) (c : Char) (hc : IsSpace c = false) :
    ∀ r : List Char, List.rdropWhile IsSpace ((p ++ [c]) ++ r)
      = (p ++ [c]) ++ List.rdropWhile IsSpace r := by
  intro r
  induction r using List.reverseRecOn with
  | nil =>
    simp only [List.append_nil, List.rdropWhile_nil]
    exact List.rdropWhile_concat_neg IsSpace p c (by simp [hc])
  | append_singleton r x ih =>
    rw [← List.append_assoc, List.rdropWhile_concat, List.rdropWhile_concat, ih]
    split_ifs <;> simp

/-- Trimming a string whose first part starts and ends with characters that are
not white space leaves that part whole and cuts trailing white space only. -/
theorem TrimSpace_append (p r : String) (c₁ c₂ : Char) (h₁ : p.data.head? = some c₁)
    (hc₁ : IsSpace c₁ = false) (h₂ : p.data.getLast? = some c₂) (hc₂ : IsSpace c₂ = false) :
    (TrimSpace (p ++ r)).data = p.data ++ List.rdropWhile IsSpace r.data
      ∧ (TrimSpace (p ++ r)).data = List.rdropWhile IsSpace (p ++ r).data := by
  obtain ⟨t, ht⟩ := List.head?_eq_some_iff.mp h₁
  obtain ⟨q, hq⟩ := List.getLast?_eq_some_iff.mp h₂
  have hdrop : List.dropWhile IsSpace (p ++ r).data = (p ++ r).data := by
    rw [String.data_append, ht, List.cons_append, List.dropWhile_cons_of_neg (by simp [hc₁])]
  rw [TrimSpace_data, hdrop, String.data_append, hq]
  exact ⟨rdropWhile_append_of_last q c₂ hc₂ r.data, rfl⟩

/-- Leading white space in front of a string does not change what trimming gives. -/
theorem TrimSpace_leading (w r : String) (hw : ∀ c ∈ w.data, IsSpace c = true) :
    TrimSpace (w ++ r) = TrimSpace r := by
  unfold TrimSpace
  rw [String.data_append, List.dropWhile_append_of_pos hw]

theorem digitChar_ne_esc : ∀ n : Nat, n < 10 → digitChar n ≠ '\x1b' := by decide

theorem fmtIntLoop_no_esc (f : Nat) : ∀ (v : Nat) (buf : List Char), '\x1b' ∉ buf →
    '\x1b' ∉ fmtIntLoop f v buf := by
  induction f with
  | zero => intro v buf h; simpa [fmtIntLoop] using h
  | succ n ih =>
    intro v buf h
    simp only [fmtIntLoop]
    split_ifs
    · apply ih
      simp only [List.mem_cons, not_or]
      exact ⟨(digitChar_ne_esc (v % 10) (Nat.mod_lt _ (by norm_num))).symm, h⟩
    · exact h

theorem fmtInt_no_esc (buf : List Char) (v : Nat) (h : '\x1b' ∉ buf) :
    '\x1b' ∉ fmtInt buf v := by
  unfold fmtInt
  split_ifs
  · simp only [List.mem_cons, not_or]
    exact ⟨by decide, h⟩
  · exact fmtIntLoop_no_esc v v buf h

theorem fmtFracLoop_no_esc (i : Nat) : ∀ (v : Nat) (print : Bool) (buf : List Char),
    '\x1b' ∉ buf → '\x1b' ∉ (fmtFracLoop i v print buf).1 := by
  induction i with
  | zero => intro v print buf h; simpa [fmtFracLoop] using h
  | succ n ih =>
    intro v print buf h
    simp only [fmtFracLoop]
    apply ih
    split_ifs
    · simp only [List.mem_cons, not_or]
      exact ⟨(digitChar_ne_esc (v % 10) (Nat.mod_lt _ (by norm_num))).symm, h⟩
    · exact h

theorem fmtFrac_no_esc (buf : List Char) (v prec : Nat) (h : '\x1b' ∉ buf) :
    '\x1b' ∉ (fmtFrac buf v prec).1 := by
  have := fmtFracLoop_no_esc prec v false buf h
  unfold fmtFrac
  rcases hl : fmtFracLoop prec v false buf with ⟨b, v', p⟩
  rw [hl] at this
  simp only []
  split_ifs
  · simp only [List.mem_cons, not_or]
    exact ⟨by decide, this⟩
  · exact this

theorem cons_no_esc (c : Char) (buf : List Char) (hc : c ≠ '\x1b') (h : '\x1b' ∉ buf) :
    '\x1b' ∉ c :: buf := by
  simp only [List.mem_cons, not_or]
  exact ⟨hc.symm, h⟩

/-- The text of a duration holds no escape character. -/
theorem Duration_String_no_esc (d : Int) : '\x1b' ∉ (Duration.String d).data := by
  have hd : ∀ (P : Prop) [Decidable P] (buf : List Char), '\x1b' ∉ buf →
      '\x1b' ∉ (if P then '-' :: buf else buf) := by
    intro P _ buf h
    split_ifs
    · exact cons_no_esc _ _ (by decide) h
    · exact h
  have hfrac : ∀ (u : Nat), '\x1b' ∉ fmtInt (fmtFrac ['s'] u 9).1 ((fmtFrac ['s'] u 9).2 % 60) :=
    fun u => fmtInt_no_esc _ _ (fmtFrac_no_esc _ _ _ (by decide))
  unfold Duration.String
  simp only []
  apply hd
  split_ifs
  · decide
  · exact fmtInt_no_esc _ _ (fmtFrac_no_esc _ _ _ (by decide))
  · exact fmtInt_no_esc _ _ (fmtFrac_no_esc _ _ _ (by decide))
  · exact fmtInt_no_esc _ _ (fmtFrac_no_esc _ _ _ (by decide))
  · exact fmtInt_no_esc _ _ (cons_no_esc _ _ (by decide)
      (fmtInt_no_esc _ _ (cons_no_esc _ _ (by decide) (hfrac _))))
  · exact fmtInt_no_esc _ _ (cons_no_esc _ _ (by decide) (hfrac _))
  · exact hfrac _

/-! ## Upper-casing of the level names -/

theorem ToUpper_INFO (upperTable : Char → Char) : ToUpper upperTable "INFO" = "INFO" := rfl

theorem ToUpper_WARN (upperTable : Char → Char) : ToUpper upperTable "WARN" = "WARN" := rfl

theorem ToUpper_ERROR (upperTable : Char → Char) : ToUpper upperTable "ERROR" = "ERROR" := rfl

theorem ToUpper_FATAL (upperTable : Char → Char) : ToUpper upperTable "FATAL" = "FATAL" := rfl

theorem ToUpper_DEBUG (upperTable : Char → Char) : ToUpper upperTable "DEBUG" = "DEBUG" := rfl

theorem ToUpper_TIME (upperTable : Char → Char) : ToUpper upperTable "TIME" = "TIME" := rfl

/-- The method `format` reads its level through `ToUpper` only. -/
theorem format_of_ToUpper_eq (upperTable : Char → Char) (now : Int) (l : Logger)
    (s₁ s₂ m : String) (c : Bool) (h : ToUpper upperTable s₁ = ToUpper upperTable s₂) :
    format upperTable now l s₁ m c = format upperTable now l s₂ m c := by
  unfold format
  simp only [h]

/-- Upper-casing an ASCII rune twice is upper-casing it once. -/
theorem unicodeToUpper_ascii_idem (upperTable : Char → Char) (r : Char) (h : r.toNat ≤ 0x7F) :
    unicodeToUpper upperTable (unicodeToUpper upperTable r) = unicodeToUpper upperTable r := by
  have key : ∀ n : Nat, n < 128 →
      unicodeToUpper upperTable (unicodeToUpper upperTable (Char.ofNat n))
        = unicodeToUpper upperTable (Char.ofNat n) := by
    intro n hn
    interval_cases n <;> rfl
  have := key r.toNat (by omega)
  rwa [Char.ofNat_toNat] at this

theorem ToUpper_idem_of (upperTable : Char → Char) (s : String)
    (h : ∀ r ∈ s.data, unicodeToUpper upperTable (unicodeToUpper upperTable r)
      = unicodeToUpper upperTable r) :
    ToUpper upperTable (ToUpper upperTable s) = ToUpper upperTable s := by
  unfold ToUpper
  simp only [List.map_map]
  congr 1
  apply List.map_congr_left
  intro r hr
  exact h r hr

/-! ## Frame facts and the dispatch methods by case -/

/-- The method `format` never touches the two writers. -/
theorem format_writers (upperTable : Char → Char) (now : Int) (l : Logger) (level msg : String)
    (c : Bool) :
    (format upperTable now l level msg c).2.fileLogger = l.fileLogger
      ∧ (format upperTable now l level msg c).2.screenLogger = l.screenLogger := by
  unfold format
  simp only []
  split_ifs <;> exact ⟨rfl, rfl⟩

/-- At a level that is not `TIME`, `format` returns the logger as it was. -/
theorem format_logger_of_ne_TIME (upperTable : Char → Char) (now : Int) (l : Logger)
    (level msg : String) (c : Bool) (h : ToUpper upperTable level ≠ "TIME") :
    (format upperTable now l level msg c).2 = l := by
  unfold format
  simp only []
  split_ifs <;> rfl

theorem ToFile_of_some (upperTable : Char → Char) (now : Int) (s : State) (level msg : String)
    (fw : LogLogger) (h : s.logger.fileLogger = some fw) :
    ToFile upperTable now s level msg
      = .returns { logger := (format upperTable now s.logger level msg false).2
                   printed := s.printed
                     ++ [⟨Sink.file, (format upperTable now s.logger level msg false).1⟩] } := by
  simp [ToFile, h]

theorem ToFile_of_none (upperTable : Char → Char) (now : Int) (s : State) (level msg : String)
    (h : s.logger.fileLogger = none) :
    ToFile upperTable now s level msg = .returns s := by
  simp [ToFile, h]

theorem ToScreen_of_some (upperTable : Char → Char) (now : Int) (s : State) (level msg : String)
    (sw : LogLogger) (h : s.logger.screenLogger = some sw) :
    ToScreen upperTable now s level msg
      = .returns { logger := (format upperTable now s.logger level msg true).2
                   printed := s.printed ++ [⟨Sink.screen,
                     TrimSpace (format upperTable now s.logger level msg true).1⟩] } := by
  have hw := (format_writers upperTable now s.logger level msg true).2
  rw [h] at hw
  simp [ToScreen, hw]

/-- A logger without screen writer makes `ToScreen` panic, with nothing printed. -/
theorem ToScreen_of_none (upperTable : Char → Char) (now : Int) (s : State) (level msg : String)
    (h : s.logger.screenLogger = none) :
    ToScreen upperTable now s level msg
      = .panics { logger := (format upperTable now s.logger level msg true).2
                  printed := s.printed } := by
  have hw := (format_writers upperTable now s.logger level msg true).2
  rw [h] at hw
  simp [ToScreen, hw]

theorem ToBoth_of_some (upperTable : Char → Char) (now₁ now₂ : Int) (s : State)
    (level msg : String) (fw sw : LogLogger) (hfile : s.logger.fileLogger = some fw)
    (hscreen : s.logger.screenLogger = some sw) :
    ToBoth upperTable now₁ now₂ s level msg
      = .returns
          { logger := (format upperTable now₂ (format upperTable now₁ s.logger level msg false).2
              level msg true).2
            printed := s.printed
              ++ [⟨Sink.file, (format upperTable now₁ s.logger level msg false).1⟩,
                  ⟨Sink.screen, TrimSpace (format upperTable now₂
                    (format upperTable now₁ s.logger level msg false).2 level msg true).1⟩] } := by
  have hw := (format_writers upperTable now₁ s.logger level msg false).2
  rw [hscreen] at hw
  rw [ToBoth, ToFile_of_some upperTable now₁ s level msg fw hfile]
  simp only [Exec.bind]
  rw [ToScreen_of_some upperTable now₂ _ level msg sw hw]
  simp

theorem ToBoth_of_none (upperTable : Char → Char) (now₁ now₂ : Int) (s : State)
    (level msg : String) (sw : LogLogger) (hfile : s.logger.fileLogger = none)
    (hscreen : s.logger.screenLogger = some sw) :
    ToBoth upperTable now₁ now₂ s level msg
      = .returns
          { logger := (format upperTable now₂ s.logger level msg true).2
            printed := s.printed
              ++ [⟨Sink.screen, TrimSpace (format upperTable now₂ s.logger level msg true).1⟩] } := by
  rw [ToBoth, ToFile_of_none upperTable now₁ s level msg hfile]
  simp only [Exec.bind]
  rw [ToScreen_of_some upperTable now₂ _ level msg sw hscreen]

/-! ## Formatting -/

/-- C1: for a level string `s` whose upper-cased form is INFO, WARN, ERROR, FATAL
or DEBUG, `format s m false` is the level's 8-character bracketed prefix `P`, one
space and the message, with nothing else (no colour escape), in every logger
state and at every clock reading. -/
theorem format_plain_levels (upperTable : Char → Char) (now : Int) (l : Logger)
    (s m P : String)
    (h : (ToUpper upperTable s, P) ∈ [("INFO", "  [INFO]"), ("WARN", "  [WARN]"),
      ("ERROR", " [ERROR]"), ("FATAL", " [FATAL]"), ("DEBUG", " [DEBUG]")]) :
    (format upperTable now l s m false).1 = P ++ " " ++ m ∧ P.length = 8 := by
  simp only [List.mem_cons, Prod.mk.injEq, List.mem_singleton, List.not_mem_nil, or_false] at h
  rcases h with ⟨h, rfl⟩ | ⟨h, rfl⟩ | ⟨h, rfl⟩ | ⟨h, rfl⟩ | ⟨h, rfl⟩ <;>
    simp [format, h] <;> rfl

theorem format_plain_levels_witness :
    (format id 7 ⟨none, none, 0⟩ "warn" "disk low" false).1 = "  [WARN]" ++ " " ++ "disk low"
      ∧ "  [WARN]".length = 8 :=
  format_plain_levels id 7 ⟨none, none, 0⟩ "warn" "disk low" "  [WARN]" (by decide)

/-- C2: for each of the six recognized levels `L`, `format L m true` begins with
the level's colour escape `C`, its prefix `P`, the reset escape and one space
(cyan for INFO, yellow for WARN, red for ERROR and FATAL, blue 94 for DEBUG,
green for TIME); for the five levels other than TIME the result is exactly that
followed by the message. -/
theorem format_colour_levels (upperTable : Char → Char) (now : Int) (l : Logger)
    (L C P m : String)
    (h : (L, C, P) ∈ [("INFO", "\x1b[36m", "  [INFO]"), ("WARN", "\x1b[33m", "  [WARN]"),
      ("ERROR", "\x1b[31m", " [ERROR]"), ("FATAL", "\x1b[31m", " [FATAL]"),
      ("DEBUG", "\x1b[94m", " [DEBUG]"), ("TIME", "\x1b[32m", "[TIMING]")]) :
    (C ++ P ++ "\x1b[0m" ++ " ").data <+: (format upperTable now l L m true).1.data
      ∧ (L ≠ "TIME" →
          (format upperTable now l L m true).1 = C ++ P ++ "\x1b[0m" ++ " " ++ m) := by
  simp only [List.mem_cons, Prod.mk.injEq, List.mem_singleton, List.not_mem_nil, or_false] at h
  rcases h with ⟨rfl, rfl, rfl⟩ | ⟨rfl, rfl, rfl⟩ | ⟨rfl, rfl, rfl⟩ | ⟨rfl, rfl, rfl⟩ |
    ⟨rfl, rfl, rfl⟩ | ⟨rfl, rfl, rfl⟩
  all_goals
    simp [format, ToUpper_INFO, ToUpper_WARN, ToUpper_ERROR, ToUpper_FATAL, ToUpper_DEBUG,
      ToUpper_TIME, Cyan, Yellow, Red, Blue, Green, Reset]
  split <;> simp

theorem format_colour_levels_witness :
    ("\x1b[31m" ++ " [ERROR]" ++ "\x1b[0m" ++ " ").data
        <+: (format id 5 ⟨none, none, 0⟩ "ERROR" "x" true).1.data
      ∧ ("ERROR" ≠ "TIME" → (format id 5 ⟨none, none, 0⟩ "ERROR" "x" true).1
          = "\x1b[31m" ++ " [ERROR]" ++ "\x1b[0m" ++ " " ++ "x") :=
  format_colour_levels id 5 ⟨none, none, 0⟩ "ERROR" "\x1b[31m" " [ERROR]" "x" (by decide)

/-! ## The stopwatch -/

/-- C3: when the timer baseline is unset and the clock reads a non-zero `t`,
`format "TIME" m c` returns the `[TIMING]` prefix (wrapped in green and reset
when `c` is true), a space, the message and the suffix ` (start)`, and leaves the
baseline set to `t`; nothing else of the logger changes. -/
theorem format_time_start (upperTable : Char → Char) (l : Logger) (m : String) (c : Bool)
    (t : Int) (hbase : l.startTime = 0) (ht : t ≠ 0) :
    format upperTable t l "TIME" m c
        = ((if c then "\x1b[32m" ++ "[TIMING]" ++ "\x1b[0m" else "[TIMING]") ++ " " ++ m
            ++ " (start)", { l with startTime := t })
      ∧ (format upperTable t l "TIME" m c).2.startTime = t
      ∧ IsZero (format upperTable t l "TIME" m c).2.startTime = false := by
  cases c <;> simp [format, ToUpper_TIME, IsZero, hbase, ht, Green, Reset, String.append_assoc]

theorem format_time_start_witness :
    format id 42 ⟨none, some ⟨Output.stdout, "", 3⟩, 0⟩ "TIME" "load" true
        = ((if true then "\x1b[32m" ++ "[TIMING]" ++ "\x1b[0m" else "[TIMING]") ++ " " ++ "load"
            ++ " (start)",
            { (⟨none, some ⟨Output.stdout, "", 3⟩, 0⟩ : Logger) with startTime := 42 })
      ∧ (format id 42 ⟨none, some ⟨Output.stdout, "", 3⟩, 0⟩ "TIME" "load" true).2.startTime = 42
      ∧ IsZero (format id 42 ⟨none, some ⟨Output.stdout, "", 3⟩, 0⟩ "TIME" "load" true).2.startTime
          = false :=
  format_time_start id ⟨none, some ⟨Output.stdout, "", 3⟩, 0⟩ "load" true 42 rfl (by decide)

/-- The `TIME` branch of `format` once the baseline is set. -/
theorem format_time_of_set (upperTable : Char → Char) (l : Logger) (m : String) (c : Bool)
    (t₁ : Int) (hset : l.startTime ≠ 0) :
    format upperTable t₁ l "TIME" m c
      = ((if c then "\x1b[32m" ++ "[TIMING]" ++ "\x1b[0m" else "[TIMING]") ++ " " ++ m ++ " (+"
          ++ Duration.String (Truncate (Since t₁ l.startTime) Millisecond) ++ ")", l) := by
  cases c <;> simp [format, ToUpper_TIME, IsZero, hset, Green, Reset, String.append_assoc]

/-- C4 as stated fails: with the baseline at 1ns and the clock at 1ns + 10^19ns
(about 317 years later) `format "TIME" "m" false` returns
`[TIMING] m (+2562047h47m16.854s)`, the largest `Duration` truncated, because
`time.Since` stops at the largest `Duration`; no `d` that is the elapsed time
truncated to whole milliseconds gives that string. -/
theorem format_time_elapsed_counterexample :
    (format id 10000000000000000001 ⟨none, none, 1⟩ "TIME" "m" false).1
        = "[TIMING] m (+2562047h47m16.854s)"
      ∧ ¬ ∃ d : Int, (1000000 : Int) ∣ d ∧ 0 ≤ d ∧ d ≤ (10000000000000000001 : Int) - 1
        ∧ (10000000000000000001 : Int) - 1 < d + 1000000
        ∧ (format id 10000000000000000001 ⟨none, none, 1⟩ "TIME" "m" false).1
            = "[TIMING]" ++ " " ++ "m" ++ " (+" ++ Duration.String d ++ ")" := by
  have hfmt := format_time_of_set id ⟨none, none, 1⟩ "m" false 10000000000000000001 (by decide)
  have hd : Truncate (Since 10000000000000000001 (1 : Int)) Millisecond = 9223372036854000000 := by
    decide
  have hs : Duration.String 9223372036854000000 = "2562047h47m16.854s" := by decide
  refine ⟨by simp [hfmt, hd, hs], ?_⟩
  rintro ⟨d, ⟨k, rfl⟩, h0, h1, h2, heq⟩
  have hk : k = 10000000000000 := by omega
  subst hk
  revert heq
  decide

/-- C4, amended: when the baseline is set to `t₀` and the clock reads `t₁ ≥ t₀`,
`format "TIME" m c` returns the `[TIMING]` prefix (green-wrapped when `c`), a
space, the message and ` (+<d>)` with `d` rendered by `Duration.String`, and the
logger, baseline included, is unchanged. `d` is a whole number of milliseconds
with `0 ≤ d ≤ t₁ - t₀`; it is the elapsed time truncated toward zero
(`t₁ - t₀ < d + 1ms`) whenever the elapsed time fits in a `Duration`
(at most 2^63 - 1 ns), and the truncated largest `Duration` otherwise. An elapsed
1.2345678s gives `1.234s`, 500ms gives `500ms`, less than 1ms gives `0s`. -/
theorem format_time_elapsed (upperTable : Char → Char) (l : Logger) (m : String) (c : Bool)
    (t₁ : Int) (hset : l.startTime ≠ 0) (hle : l.startTime ≤ t₁) :
    (∃ d : Int,
        format upperTable t₁ l "TIME" m c
          = ((if c then "\x1b[32m" ++ "[TIMING]" ++ "\x1b[0m" else "[TIMING]") ++ " " ++ m ++ " (+"
              ++ Duration.String d ++ ")", l)
        ∧ (1000000 : Int) ∣ d ∧ 0 ≤ d ∧ d ≤ t₁ - l.startTime
        ∧ (t₁ - l.startTime ≤ 9223372036854775807 → t₁ - l.startTime < d + 1000000)
        ∧ (9223372036854775807 < t₁ - l.startTime → d = 9223372036854000000))
      ∧ (t₁ - l.startTime = 1234567800 → (format upperTable t₁ l "TIME" m c).1
          = (if c then "\x1b[32m" ++ "[TIMING]" ++ "\x1b[0m" else "[TIMING]") ++ " " ++ m
              ++ " (+1.234s)")
      ∧ (t₁ - l.startTime = 500000000 → (format upperTable t₁ l "TIME" m c).1
          = (if c then "\x1b[32m" ++ "[TIMING]" ++ "\x1b[0m" else "[TIMING]") ++ " " ++ m
              ++ " (+500ms)")
      ∧ (t₁ - l.startTime < 1000000 → (format upperTable t₁ l "TIME" m c).1
          = (if c then "\x1b[32m" ++ "[TIMING]" ++ "\x1b[0m" else "[TIMING]") ++ " " ++ m
              ++ " (+0s)") := by
  have hfmt := format_time_of_set upperTable l m c t₁ hset
  have hnn : (0 : Int) ≤ min (t₁ - l.startTime) 9223372036854775807 := by omega
  have htr : Truncate (Since t₁ l.startTime) Millisecond
      = min (t₁ - l.startTime) 9223372036854775807 / 1000000 * 1000000 := by
    rw [Since_of_le _ _ hle, Truncate_ms_of_nonneg _ hnn]
  refine ⟨⟨_, hfmt, ?_, ?_, ?_, ?_, ?_⟩, ?_, ?_, ?_⟩
  · rw [htr]; exact Dvd.intro_left _ rfl
  · rw [htr]; omega
  · rw [htr]; omega
  · rw [htr]; omega
  · rw [htr]; omega
  · intro h
    have hd : Truncate (Since t₁ l.startTime) Millisecond = 1234000000 := by rw [htr]; omega
    rw [hfmt, hd]
    have : Duration.String 1234000000 = "1.234s" := by decide
    simp [this, String.append_assoc]
  · intro h
    have hd : Truncate (Since t₁ l.startTime) Millisecond = 500000000 := by rw [htr]; omega
    rw [hfmt, hd]
    have : Duration.String 500000000 = "500ms" := by decide
    simp [this, String.append_assoc]
  · intro h
    have hd : Truncate (Since t₁ l.startTime) Millisecond = 0 := by rw [htr]; omega
    rw [hfmt, hd]
    have : Duration.String 0 = "0s" := by decide
    simp [this, String.append_assoc]

theorem format_time_elapsed_witness :
    (1000 : Int) ≠ 0 ∧ (1000 : Int) ≤ 1234568800
      ∧ (format id 1234568800 ⟨none, none, 1000⟩ "TIME" "load" true).1
          = (if true then "\x1b[32m" ++ "[TIMING]" ++ "\x1b[0m" else "[TIMING]") ++ " " ++ "load"
              ++ " (+1.234s)" :=
  ⟨by decide, by decide,
    (format_time_elapsed id ⟨none, none, 1000⟩ "load" true 1234568800 (by decide)
      (by decide)).2.1 (by decide)⟩

/-- C5: `ResetTimer` leaves the baseline unset and both writers as they were, so
the next `format "TIME"` returns the prefix, the message and ` (start)` and sets
the baseline to the clock reading of that call; this is the string and the
baseline that the same call gives on a `Logger` fresh from `New`. -/
theorem ResetTimer_restarts (upperTable : Char → Char) (l : Logger) (now : Int) (m : String)
    (c : Bool) :
    IsZero (ResetTimer l).startTime = true
      ∧ (ResetTimer l).fileLogger = l.fileLogger
      ∧ (ResetTimer l).screenLogger = l.screenLogger
      ∧ format upperTable now (ResetTimer l) "TIME" m c
          = ((if c then "\x1b[32m" ++ "[TIMING]" ++ "\x1b[0m" else "[TIMING]") ++ " " ++ m
              ++ " (start)", { l with startTime := now })
      ∧ " (start)".data <:+ (format upperTable now (ResetTimer l) "TIME" m c).1.data
      ∧ ∀ (FS E : Type) (OpenFile : FS → String → Nat → Nat → Except E File × FS) (fs : FS)
          (path : String) (l₀ : Logger), (New OpenFile fs path).1 = .ok l₀ →
          (format upperTable now l₀ "TIME" m c).1
              = (format upperTable now (ResetTimer l) "TIME" m c).1
            ∧ (format upperTable now l₀ "TIME" m c).2.startTime
              = (format upperTable now (ResetTimer l) "TIME" m c).2.startTime := by
  have hfmt : ∀ l' : Logger, l'.startTime = 0 → format upperTable now l' "TIME" m c
      = ((if c then "\x1b[32m" ++ "[TIMING]" ++ "\x1b[0m" else "[TIMING]") ++ " " ++ m
          ++ " (start)", { l' with startTime := now }) := by
    intro l' h
    cases c <;> simp [format, ToUpper_TIME, IsZero, h, Green, Reset, String.append_assoc]
  refine ⟨rfl, rfl, rfl, ?_, ?_, ?_⟩
  · rw [hfmt _ rfl]; rfl
  · rw [hfmt _ rfl]
    simp only [String.data_append]
    exact List.suffix_append _ _
  · intro FS E OpenFile fs path l₀ h
    have h0 : l₀.startTime = 0 := by
      unfold New at h
      simp only [] at h
      split_ifs at h with hp
      · split at h
        · simp at h
        · simp at h; rw [← h]
      · simp at h; rw [← h]
    rw [hfmt (ResetTimer l) rfl, hfmt l₀ h0]
    exact ⟨rfl, rfl⟩

theorem ResetTimer_restarts_witness :
    (format id 9 ⟨none, some ⟨Output.stdout, "", Ldate ||| Ltime⟩, 0⟩ "TIME" "load" false).1
        = (format id 9 (ResetTimer ⟨none, none, 5⟩) "TIME" "load" false).1
      ∧ (format id 9 ⟨none, some ⟨Output.stdout, "", Ldate ||| Ltime⟩, 0⟩ "TIME" "load"
            false).2.startTime
        = (format id 9 (ResetTimer ⟨none, none, 5⟩) "TIME" "load" false).2.startTime :=
  (ResetTimer_restarts id ⟨none, none, 5⟩ 9 "load" false).2.2.2.2.2 Unit String
    (fun fs _ _ _ => (Except.error "denied", fs)) () ""
    ⟨none, some ⟨Output.stdout, "", Ldate ||| Ltime⟩, 0⟩ rfl

/-! ## Construction -/

/-- C6: `New` with an empty path opens nothing (the file system is untouched,
whatever `OpenFile` would do) and returns a `Logger` without file writer; with a
non-empty path it returns the error of a failed open and no `Logger`, and after
a successful open a `Logger` whose file writer prints to the opened file. Hence
for every `Logger` that `New` returns the file writer is absent exactly when the
path was empty, the screen writer is present (on standard output) and the timer
baseline is unset. -/
theorem New_result {FS E : Type} (OpenFile : FS → String → Nat → Nat → Except E File × FS)
    (fs : FS) (path : String) :
    New OpenFile fs "" = (.ok ⟨none, some ⟨Output.stdout, "", Ldate ||| Ltime⟩, 0⟩, fs)
      ∧ (∀ (e : E) (fs' : FS), path ≠ "" →
          OpenFile fs path (O_APPEND ||| O_CREATE ||| O_WRONLY) 0o644 = (.error e, fs') →
          New OpenFile fs path = (.error e, fs'))
      ∧ (∀ (f : File) (fs' : FS), path ≠ "" →
          OpenFile fs path (O_APPEND ||| O_CREATE ||| O_WRONLY) 0o644 = (.ok f, fs') →
          New OpenFile fs path
            = (.ok ⟨some ⟨Output.file f, "", Ldate ||| Ltime ||| Lshortfile⟩,
                some ⟨Output.stdout, "", Ldate ||| Ltime⟩, 0⟩, fs'))
      ∧ (∀ l : Logger, (New OpenFile fs path).1 = .ok l →
          (l.fileLogger = none ↔ path = "")
            ∧ l.screenLogger = some ⟨Output.stdout, "", Ldate ||| Ltime⟩
            ∧ IsZero l.startTime = true) := by
  refine ⟨by simp [New], ?_, ?_, ?_⟩
  · intro e fs' hp ho
    simp [New, hp, ho]
  · intro f fs' hp ho
    simp [New, hp, ho]
  · intro l h
    unfold New at h
    simp only [] at h
    split_ifs at h with hp
    · split at h
      · simp at h
      · simp at h; subst h; simpa [IsZero] using hp
    · simp at h; subst h; simpa [IsZero] using hp

theorem New_result_witness :
    New exampleOpenFile [] "/" = (.error "open /: is a directory", [])
      ∧ New exampleOpenFile [] "app.log"
          = (.ok ⟨some ⟨Output.file ⟨3, "app.log"⟩, "", Ldate ||| Ltime ||| Lshortfile⟩,
              some ⟨Output.stdout, "", Ldate ||| Ltime⟩, 0⟩, ["app.log"]) :=
  ⟨(New_result exampleOpenFile [] "/").2.1 "open /: is a directory" [] (by decide) rfl,
    (New_result exampleOpenFile [] "app.log").2.2.1 ⟨3, "app.log"⟩ ["app.log"] (by decide) rfl⟩

/-! ## Dispatch -/

/-- C7: `ToBoth level msg` is `ToFile level msg` followed by `ToScreen level msg`
on the state `ToFile` left. With a file writer (and the screen writer every
`Logger` has) it prints exactly one line through the file writer, the plain
`format`, and then exactly one through the screen writer, the trimmed coloured
`format`; `ToBoth "ERROR" "x"` prints ` [ERROR] x` to the file and the
red-wrapped ` [ERROR]` followed by ` x` to the screen. -/
theorem ToBoth_effect (upperTable : Char → Char) (now₁ now₂ : Int) (s : State)
    (level msg : String) :
    ToBoth upperTable now₁ now₂ s level msg
        = (ToFile upperTable now₁ s level msg).bind
            (fun s' => ToScreen upperTable now₂ s' level msg)
      ∧ (∀ fw sw, s.logger.fileLogger = some fw → s.logger.screenLogger = some sw →
          ∃ s₁ s₂, ToFile upperTable now₁ s level msg = .returns s₁
            ∧ ToScreen upperTable now₂ s₁ level msg = .returns s₂
            ∧ ToBoth upperTable now₁ now₂ s level msg = .returns s₂
            ∧ s₁.printed = s.printed
                ++ [⟨Sink.file, (format upperTable now₁ s.logger level msg false).1⟩]
            ∧ s₂.printed = s₁.printed
                ++ [⟨Sink.screen, TrimSpace (format upperTable now₂ s₁.logger level msg true).1⟩])
      ∧ (∀ fw sw, s.logger.fileLogger = some fw → s.logger.screenLogger = some sw →
          ToBoth upperTable now₁ now₂ s "ERROR" "x"
            = .returns { logger := s.logger
                         printed := s.printed ++ [⟨Sink.file, " [ERROR] x"⟩,
                           ⟨Sink.screen, "\x1b[31m [ERROR]\x1b[0m x"⟩] }) := by
  refine ⟨rfl, ?_, ?_⟩
  · intro fw sw hf hs
    have hw := (format_writers upperTable now₁ s.logger level msg false).2
    rw [hs] at hw
    refine ⟨_, _, ToFile_of_some upperTable now₁ s level msg fw hf,
      ToScreen_of_some upperTable now₂ _ level msg sw hw, ?_, rfl, rfl⟩
    rw [ToBoth_of_some upperTable now₁ now₂ s level msg fw sw hf hs]
    simp
  · intro fw sw hf hs
    rw [ToBoth_of_some upperTable now₁ now₂ s "ERROR" "x" fw sw hf hs]
    have hf : ∀ (t : Int) (l : Logger) (c : Bool), format upperTable t l "ERROR" "x" c
        = ((if c then "\x1b[31m [ERROR]\x1b[0m x" else " [ERROR] x"), l) := by
      intro t l c
      cases c <;> simp [format, ToUpper_ERROR, Red, Reset]
    have ht : TrimSpace "\x1b[31m [ERROR]\x1b[0m x" = "\x1b[31m [ERROR]\x1b[0m x" := by decide
    simp [hf, ht]

theorem ToBoth_effect_witness :
    ToBoth id 1 2 ⟨⟨some ⟨Output.file ⟨3, "app.log"⟩, "", 19⟩, some ⟨Output.stdout, "", 3⟩, 0⟩, []⟩
        "ERROR" "x"
      = .returns { logger := ⟨some ⟨Output.file ⟨3, "app.log"⟩, "", 19⟩,
                      some ⟨Output.stdout, "", 3⟩, 0⟩
                   printed := [] ++ [⟨Sink.file, " [ERROR] x"⟩,
                     ⟨Sink.screen, "\x1b[31m [ERROR]\x1b[0m x"⟩] } :=
  (ToBoth_effect id 1 2
    ⟨⟨some ⟨Output.file ⟨3, "app.log"⟩, "", 19⟩, some ⟨Output.stdout, "", 3⟩, 0⟩, []⟩
    "ERROR" "x").2.2 _ _ rfl rfl

/-- C8: `ToFile` writes exactly when there is a file writer. With one, it prints
exactly one line through the file writer, `format level msg false` as it is
(no colour, no trimming), and nothing through the screen writer; without one it
returns with the whole state unchanged (nothing printed, logger and timer
baseline as before, also for the level `TIME`) and never fails. -/
theorem ToFile_effect (upperTable : Char → Char) (now : Int) (s : State) (level msg : String) :
    (∀ fw, s.logger.fileLogger = some fw →
        ∃ s', ToFile upperTable now s level msg = .returns s'
          ∧ s'.logger = (format upperTable now s.logger level msg false).2
          ∧ s'.printed = s.printed
              ++ [⟨Sink.file, (format upperTable now s.logger level msg false).1⟩]
          ∧ fileLines s'.printed = fileLines s.printed
              ++ [(format upperTable now s.logger level msg false).1]
          ∧ screenLines s'.printed = screenLines s.printed)
      ∧ (s.logger.fileLogger = none → ToFile upperTable now s level msg = .returns s)
      ∧ ∃ s', ToFile upperTable now s level msg = .returns s'
          ∧ (s'.printed ≠ s.printed ↔ s.logger.fileLogger ≠ none) := by
  refine ⟨?_, ToFile_of_none upperTable now s level msg, ?_⟩
  · intro fw h
    refine ⟨_, ToFile_of_some upperTable now s level msg fw h, rfl, rfl, ?_, ?_⟩
    · simp [fileLines]
    · simp [screenLines]
  · cases h : s.logger.fileLogger with
    | none => exact ⟨s, ToFile_of_none upperTable now s level msg h, by simp⟩
    | some fw => exact ⟨_, ToFile_of_some upperTable now s level msg fw h, by simp⟩

theorem ToFile_effect_witness :
    ∃ s', ToFile id 0 ⟨⟨some ⟨Output.file ⟨3, "app.log"⟩, "", 19⟩, none, 0⟩, []⟩ "info" "up"
        = .returns s'
      ∧ s'.logger = (format id 0 ⟨some ⟨Output.file ⟨3, "app.log"⟩, "", 19⟩, none, 0⟩ "info" "up"
          false).2
      ∧ s'.printed = [] ++ [⟨Sink.file,
          (format id 0 ⟨some ⟨Output.file ⟨3, "app.log"⟩, "", 19⟩, none, 0⟩ "info" "up" false).1⟩]
      ∧ fileLines s'.printed = fileLines []
          ++ [(format id 0 ⟨some ⟨Output.file ⟨3, "app.log"⟩, "", 19⟩, none, 0⟩ "info" "up"
            false).1]
      ∧ screenLines s'.printed = screenLines [] :=
  (ToFile_effect id 0 ⟨⟨some ⟨Output.file ⟨3, "app.log"⟩, "", 19⟩, none, 0⟩, []⟩ "info" "up").1
    ⟨Output.file ⟨3, "app.log"⟩, "", 19⟩ rfl

/-- C9: for every logger with its screen writer (with or without a file writer),
`ToScreen` prints exactly one line through the screen writer and nothing through
the file writer. The line is `format level msg true` without its leading and
trailing white space: what is cut off on either side is white space only, and
the line neither starts nor ends with white space. On a `Logger` that `New`
built with the empty path, `ToScreen "WARN" "disk low"` prints the yellow-wrapped
`  [WARN]` followed by ` disk low`. -/
theorem ToScreen_effect (upperTable : Char → Char) (now : Int) (s : State) (level msg : String)
    (sw : LogLogger) (hscreen : s.logger.screenLogger = some sw) :
    (∃ s', ToScreen upperTable now s level msg = .returns s'
        ∧ s'.logger = (format upperTable now s.logger level msg true).2
        ∧ s'.printed = s.printed
            ++ [⟨Sink.screen, TrimSpace (format upperTable now s.logger level msg true).1⟩]
        ∧ screenLines s'.printed = screenLines s.printed
            ++ [TrimSpace (format upperTable now s.logger level msg true).1]
        ∧ fileLines s'.printed = fileLines s.printed)
      ∧ (∃ pre post : List Char,
          (format upperTable now s.logger level msg true).1.data
            = pre ++ (TrimSpace (format upperTable now s.logger level msg true).1).data ++ post
          ∧ (∀ c ∈ pre, IsSpace c = true) ∧ (∀ c ∈ post, IsSpace c = true)
          ∧ (∀ c, (TrimSpace (format upperTable now s.logger level msg true).1).data.head?
              = some c → IsSpace c = false)
          ∧ (∀ c, (TrimSpace (format upperTable now s.logger level msg true).1).data.getLast?
              = some c → IsSpace c = false))
      ∧ (∀ (FS E : Type) (OpenFile : FS → String → Nat → Nat → Except E File × FS) (fs : FS)
          (l₀ : Logger), (New OpenFile fs "").1 = .ok l₀ →
          ToScreen upperTable now ⟨l₀, []⟩ "WARN" "disk low"
            = .returns ⟨l₀, [⟨Sink.screen, "\x1b[33m  [WARN]\x1b[0m disk low"⟩]⟩) := by
  refine ⟨⟨_, ToScreen_of_some upperTable now s level msg sw hscreen, rfl, rfl, ?_, ?_⟩,
    TrimSpace_spec _, ?_⟩
  · simp [screenLines]
  · simp [fileLines]
  · intro FS E OpenFile fs l₀ h
    have hl : l₀ = ⟨none, some ⟨Output.stdout, "", Ldate ||| Ltime⟩, 0⟩ := by
      simpa [New] using h.symm
    subst hl
    rw [ToScreen_of_some upperTable now _ "WARN" "disk low" _ rfl]
    have hf : format upperTable now ⟨none, some ⟨Output.stdout, "", Ldate ||| Ltime⟩, 0⟩
        "WARN" "disk low" true
        = ("\x1b[33m  [WARN]\x1b[0m disk low",
            ⟨none, some ⟨Output.stdout, "", Ldate ||| Ltime⟩, 0⟩) := by
      simp [format, ToUpper_WARN, Yellow, Reset]
    have ht : TrimSpace "\x1b[33m  [WARN]\x1b[0m disk low" = "\x1b[33m  [WARN]\x1b[0m disk low" := by
      decide
    simp [hf, ht]

theorem ToScreen_effect_witness :
    ToScreen id 0 ⟨⟨none, some ⟨Output.stdout, "", Ldate ||| Ltime⟩, 0⟩, []⟩ "WARN" "disk low"
      = .returns ⟨⟨none, some ⟨Output.stdout, "", Ldate ||| Ltime⟩, 0⟩,
          [⟨Sink.screen, "\x1b[33m  [WARN]\x1b[0m disk low"⟩]⟩ :=
  (ToScreen_effect id 0 ⟨⟨none, some ⟨Output.stdout, "", Ldate ||| Ltime⟩, 0⟩, []⟩ "WARN"
    "disk low"
    ⟨Output.stdout, "", Ldate ||| Ltime⟩ rfl).2.2 (List String) String exampleOpenFile []
    ⟨none, some ⟨Output.stdout, "", Ldate ||| Ltime⟩, 0⟩ rfl

/-! ## Fatal -/

/-- C10: `Fatal` hands the message `sprintf fmt v` to `ToBoth` at level `FATAL`
and then exits: it never returns to its caller, and the outcome is the same for
every `logFn`, which is not called. On a logger with its screen writer the
process exits with status 1 after printing ` [FATAL] <msg>` through the file
writer, when there is one, and then the trimmed red-wrapped line through the
screen writer; the logger itself is unchanged. -/
theorem Fatal_exits {Val : Type} (upperTable : Char → Char)
    (sprintf : String → List Val → String) (now₁ now₂ : Int) (s : State)
    (logFn : String → String → State → Exec State) (fmt : String) (v : List Val) :
    Fatal upperTable sprintf now₁ now₂ s logFn fmt v
        = (ToBoth upperTable now₁ now₂ s "FATAL" (sprintf fmt v)).bind (fun s' => .exits 1 s')
      ∧ (∀ s', Fatal upperTable sprintf now₁ now₂ s logFn fmt v ≠ .returns s')
      ∧ (∀ logFn' : String → String → State → Exec State,
          Fatal upperTable sprintf now₁ now₂ s logFn' fmt v
            = Fatal upperTable sprintf now₁ now₂ s logFn fmt v)
      ∧ (∀ sw, s.logger.screenLogger = some sw →
          Fatal upperTable sprintf now₁ now₂ s logFn fmt v
            = .exits 1
                { logger := s.logger
                  printed := s.printed
                    ++ (if s.logger.fileLogger = none then []
                        else [⟨Sink.file, " [FATAL] " ++ sprintf fmt v⟩])
                    ++ [⟨Sink.screen,
                        TrimSpace ("\x1b[31m [FATAL]\x1b[0m " ++ sprintf fmt v)⟩] }) := by
  have hf : ∀ (t : Int) (l : Logger) (c : Bool) (m : String), format upperTable t l "FATAL" m c
      = ((if c then "\x1b[31m [FATAL]\x1b[0m " else " [FATAL] ") ++ m, l) := by
    intro t l c m
    cases c <;> simp [format, ToUpper_FATAL, Red, Reset]
  refine ⟨rfl, ?_, fun _ => rfl, ?_⟩
  · intro s' h
    unfold Fatal at h
    simp only [] at h
    cases hb : ToBoth upperTable now₁ now₂ s "FATAL" (sprintf fmt v) <;>
      rw [hb] at h <;> simp [Exec.bind] at h
  · intro sw hs
    unfold Fatal
    simp only []
    cases hfl : s.logger.fileLogger with
    | none =>
      rw [ToBoth_of_none upperTable now₁ now₂ s "FATAL" _ sw hfl hs]
      simp [Exec.bind, hf]
    | some fw =>
      rw [ToBoth_of_some upperTable now₁ now₂ s "FATAL" _ fw sw hfl hs]
      simp [Exec.bind, hf]

theorem Fatal_exits_witness :
    Fatal id (fun (f : String) (v : List Nat) => f ++ toString v.length) 1 2
        ⟨⟨none, some ⟨Output.stdout, "", 3⟩, 0⟩, []⟩ (fun _ _ s => .returns s) "boom " [7]
      = .exits 1
          { logger := ⟨none, some ⟨Output.stdout, "", 3⟩, 0⟩
            printed := [] ++ (if (none : Option LogLogger) = none then []
                else [⟨Sink.file, " [FATAL] " ++ ("boom " ++ toString [7].length)⟩])
              ++ [⟨Sink.screen,
                  TrimSpace ("\x1b[31m [FATAL]\x1b[0m " ++ ("boom " ++ toString [7].length))⟩] } :=
  (Fatal_exits id (fun (f : String) (v : List Nat) => f ++ toString v.length) 1 2
    ⟨⟨none, some ⟨Output.stdout, "", 3⟩, 0⟩, []⟩ (fun _ _ s => .returns s) "boom " [7]).2.2.2
    _ rfl

/-! ## Unrecognized levels and case -/

/-- C11: for a level string whose upper-cased form is none of INFO, WARN, ERROR,
FATAL, DEBUG, TIME, and for the empty string, `format` with and without colour
returns `   [LOG]`, a space and the message, with no colour escape, and the
logger is returned unchanged. -/
theorem format_unrecognized (upperTable : Char → Char) (now : Int) (l : Logger) (s m : String)
    (h : ToUpper upperTable s ∉ ["INFO", "WARN", "ERROR", "FATAL", "DEBUG", "TIME"]) :
    format upperTable now l s m true = ("   [LOG]" ++ " " ++ m, l)
      ∧ format upperTable now l s m false = ("   [LOG]" ++ " " ++ m, l)
      ∧ format upperTable now l "" m true = ("   [LOG]" ++ " " ++ m, l)
      ∧ format upperTable now l "" m false = ("   [LOG]" ++ " " ++ m, l) := by
  simp only [List.mem_cons, List.mem_singleton, List.not_mem_nil, or_false, not_or] at h
  obtain ⟨h1, h2, h3, h4, h5, h6⟩ := h
  have he : ToUpper upperTable "" = "" := rfl
  refine ⟨?_, ?_, ?_, ?_⟩
  · simp [format, h1, h2, h3, h4, h5, h6]
  · simp [format, h1, h2, h3, h4, h5, h6]
  · simp [format, he]
  · simp [format, he]

theorem format_unrecognized_witness :
    format id 3 ⟨none, none, 9⟩ "trace" "x" true = ("   [LOG]" ++ " " ++ "x", ⟨none, none, 9⟩) :=
  (format_unrecognized id 3 ⟨none, none, 9⟩ "trace" "x" (by decide)).1

/-- C12: level matching is case-insensitive. Two level strings with the same
upper-cased form give the same string and the same logger, for every message,
colour flag, logger state and clock reading; so do `info` and `INFO`, and so do
a string and its upper-casing, for every ASCII string and, when upper-casing a
rune twice is upper-casing it once, for every string. -/
theorem format_case_insensitive (upperTable : Char → Char) (now : Int) (l : Logger)
    (s₁ s₂ m : String) (c : Bool) (h : ToUpper upperTable s₁ = ToUpper upperTable s₂) :
    format upperTable now l s₁ m c = format upperTable now l s₂ m c
      ∧ format upperTable now l "info" m c = format upperTable now l "INFO" m c
      ∧ ((∀ r ∈ s₁.data, r.toNat ≤ 0x7F) →
          format upperTable now l (ToUpper upperTable s₁) m c = format upperTable now l s₁ m c)
      ∧ ((∀ r, unicodeToUpper upperTable (unicodeToUpper upperTable r)
            = unicodeToUpper upperTable r) →
          format upperTable now l (ToUpper upperTable s₁) m c
            = format upperTable now l s₁ m c) := by
  refine ⟨format_of_ToUpper_eq upperTable now l s₁ s₂ m c h,
    format_of_ToUpper_eq upperTable now l "info" "INFO" m c rfl, ?_, ?_⟩
  · intro hs
    exact format_of_ToUpper_eq upperTable now l _ _ m c
      (ToUpper_idem_of upperTable s₁ fun r hr => unicodeToUpper_ascii_idem upperTable r (hs r hr))
  · intro ht
    exact format_of_ToUpper_eq upperTable now l _ _ m c
      (ToUpper_idem_of upperTable s₁ fun r _ => ht r)

theorem format_case_insensitive_witness :
    format id 3 ⟨none, none, 0⟩ "Time" "x" true = format id 3 ⟨none, none, 0⟩ "tIME" "x" true :=
  (format_case_insensitive id 3 ⟨none, none, 0⟩ "Time" "tIME" "x" true (by decide)).1

/-! ## The plain format of the message `m` -/

/-- C13 as stated fails for TIME: `format "TIME" "m" false` is not the prefix
followed by ` m`, neither with the baseline unset nor with it set. -/
theorem format_plain_m_counterexample :
    (format id 5 ⟨none, none, 0⟩ "TIME" "m" false).1 ≠ "[TIMING]" ++ " m"
      ∧ (format id 5 ⟨none, none, 2⟩ "TIME" "m" false).1 ≠ "[TIMING]" ++ " m" := by
  constructor <;> decide

/-- C13, amended: for INFO, WARN, ERROR, FATAL and DEBUG, in every logger state,
`format L "m" false` is exactly the fixed prefix of `L` followed by ` m`; for
TIME it is `[TIMING] m` followed by the stopwatch suffix, ` (start)` when the
baseline is unset and ` (+<elapsed>)` otherwise. For all six levels the result
holds no escape character. -/
theorem format_plain_m (upperTable : Char → Char) (now : Int) (l : Logger) :
    (∀ L P : String, (L, P) ∈ [("INFO", "  [INFO]"), ("WARN", "  [WARN]"),
        ("ERROR", " [ERROR]"), ("FATAL", " [FATAL]"), ("DEBUG", " [DEBUG]")] →
        (format upperTable now l L "m" false).1 = P ++ " m")
      ∧ (l.startTime = 0 →
          (format upperTable now l "TIME" "m" false).1 = "[TIMING]" ++ " m" ++ " (start)")
      ∧ (l.startTime ≠ 0 →
          (format upperTable now l "TIME" "m" false).1 = "[TIMING]" ++ " m" ++ " (+"
            ++ Duration.String (Truncate (Since now l.startTime) Millisecond) ++ ")")
      ∧ (∀ L : String, L ∈ ["INFO", "WARN", "ERROR", "FATAL", "DEBUG", "TIME"] →
          '\x1b' ∉ (format upperTable now l L "m" false).1.data) := by
  have h0 : l.startTime = 0 →
      (format upperTable now l "TIME" "m" false).1 = "[TIMING]" ++ " m" ++ " (start)" := by
    intro h
    simp [format, ToUpper_TIME, IsZero, h]
  have h1 : l.startTime ≠ 0 →
      (format upperTable now l "TIME" "m" false).1 = "[TIMING]" ++ " m" ++ " (+"
        ++ Duration.String (Truncate (Since now l.startTime) Millisecond) ++ ")" := by
    intro h
    rw [format_time_of_set upperTable l "m" false now h]
    simp [String.append_assoc]
  have h5 : ∀ L P : String, (L, P) ∈ [("INFO", "  [INFO]"), ("WARN", "  [WARN]"),
      ("ERROR", " [ERROR]"), ("FATAL", " [FATAL]"), ("DEBUG", " [DEBUG]")] →
      (format upperTable now l L "m" false).1 = P ++ " m" := by
    intro L P h
    simp only [List.mem_cons, Prod.mk.injEq, List.mem_singleton, List.not_mem_nil, or_false] at h
    rcases h with ⟨rfl, rfl⟩ | ⟨rfl, rfl⟩ | ⟨rfl, rfl⟩ | ⟨rfl, rfl⟩ | ⟨rfl, rfl⟩ <;>
      simp [format, ToUpper_INFO, ToUpper_WARN, ToUpper_ERROR, ToUpper_FATAL, ToUpper_DEBUG]
  refine ⟨h5, h0, h1, ?_⟩
  intro L hL
  simp only [List.mem_cons, List.mem_singleton, List.not_mem_nil, or_false] at hL
  rcases hL with rfl | rfl | rfl | rfl | rfl | rfl
  · rw [h5 "INFO" "  [INFO]" (by simp)]; decide
  · rw [h5 "WARN" "  [WARN]" (by simp)]; decide
  · rw [h5 "ERROR" " [ERROR]" (by simp)]; decide
  · rw [h5 "FATAL" " [FATAL]" (by simp)]; decide
  · rw [h5 "DEBUG" " [DEBUG]" (by simp)]; decide
  · by_cases h : l.startTime = 0
    · rw [h0 h]; decide
    · rw [h1 h]
      simp only [String.data_append, List.mem_append, not_or]
      exact ⟨⟨⟨⟨by decide, by decide⟩, by decide⟩, Duration_String_no_esc _⟩, by decide⟩

theorem format_plain_m_witness :
    (format id 1500002 ⟨none, none, 2⟩ "TIME" "m" false).1 = "[TIMING]" ++ " m" ++ " (+"
      ++ Duration.String (Truncate (Since 1500002 (2 : Int)) Millisecond) ++ ")" :=
  (format_plain_m id 1500002 ⟨none, none, 2⟩).2.2.1 (by decide)

/-! ## The timer baseline is touched by TIME and ResetTimer only -/

/-- C14: at a level whose upper-cased form is not TIME, `format` returns the
logger as it was, and `ToFile`, `ToScreen` and `ToBoth` end (however they end)
with the timer baseline as it was; the string `format` returns is the same for
every clock reading and every logger, so it depends on neither the baseline nor
the clock. -/
theorem baseline_frame (upperTable : Char → Char) (now now₂ : Int) (s : State)
    (level msg : String) (c : Bool) (h : ToUpper upperTable level ≠ "TIME") :
    (format upperTable now s.logger level msg c).2 = s.logger
      ∧ (ToFile upperTable now s level msg).final.logger.startTime = s.logger.startTime
      ∧ (ToScreen upperTable now s level msg).final.logger.startTime = s.logger.startTime
      ∧ (ToBoth upperTable now now₂ s level msg).final.logger.startTime = s.logger.startTime
      ∧ (∀ (now' : Int) (l' : Logger),
          (format upperTable now' l' level msg c).1
            = (format upperTable now s.logger level msg c).1) := by
  have hf : ∀ (t : Int) (l : Logger) (b : Bool), (format upperTable t l level msg b).2 = l :=
    fun t l b => format_logger_of_ne_TIME upperTable t l level msg b h
  have hfile : (ToFile upperTable now s level msg).final.logger = s.logger := by
    unfold ToFile
    cases s.logger.fileLogger <;> simp [Exec.final, hf]
  have hscreen : ∀ (t : Int) (s' : State),
      (ToScreen upperTable t s' level msg).final.logger = s'.logger := by
    intro t s'
    unfold ToScreen
    simp only [hf]
    cases s'.logger.screenLogger <;> simp [Exec.final]
  refine ⟨hf _ _ _, by rw [hfile], by rw [hscreen], ?_, ?_⟩
  · unfold ToBoth ToFile
    cases hfl : s.logger.fileLogger with
    | none => simp only [Exec.bind]; rw [hscreen]
    | some fw => simp only [Exec.bind]; rw [hscreen]; simp [hf]
  · intro now' l'
    unfold format
    simp only []
    split_ifs <;> rfl

theorem baseline_frame_witness :
    (ToBoth id 4 5 ⟨⟨none, none, 77⟩, []⟩ "warn" "x").final.logger.startTime
      = (⟨⟨none, none, 77⟩, []⟩ : State).logger.startTime :=
  (baseline_frame id 4 5 ⟨⟨none, none, 77⟩, []⟩ "warn" "x" true (by decide)).2.2.2.1

/-! ## The writers over sequences of calls -/

/-- One call on a logger with its screen writer returns, and leaves both writers
as they were. -/
theorem Call_run_writers {Val : Type} (upperTable : Char → Char) (sdump : List Val → String)
    (c : Call Val) (s : State) (sw : LogLogger) (h : s.logger.screenLogger = some sw) :
    ∃ s', c.run upperTable sdump s = .returns s'
      ∧ s'.logger.screenLogger = s.logger.screenLogger
      ∧ s'.logger.fileLogger = s.logger.fileLogger := by
  cases c with
  | toFile now level msg =>
    cases hf : s.logger.fileLogger with
    | none => exact ⟨s, ToFile_of_none upperTable now s level msg hf, rfl, hf⟩
    | some fw =>
      refine ⟨_, ToFile_of_some upperTable now s level msg fw hf, ?_, ?_⟩
      · exact (format_writers upperTable now s.logger level msg false).2
      · rw [← hf]; exact (format_writers upperTable now s.logger level msg false).1
  | toScreen now level msg =>
    refine ⟨_, ToScreen_of_some upperTable now s level msg sw h, ?_, ?_⟩
    · exact (format_writers upperTable now s.logger level msg true).2
    · exact (format_writers upperTable now s.logger level msg true).1
  | toBoth now₁ now₂ level msg =>
    cases hf : s.logger.fileLogger with
    | none =>
      refine ⟨_, ToBoth_of_none upperTable now₁ now₂ s level msg sw hf h, ?_, ?_⟩
      · exact (format_writers upperTable now₂ s.logger level msg true).2
      · rw [← hf]; exact (format_writers upperTable now₂ s.logger level msg true).1
    | some fw =>
      refine ⟨_, ToBoth_of_some upperTable now₁ now₂ s level msg fw sw hf h, ?_, ?_⟩
      · exact ((format_writers upperTable now₂ _ level msg true).2).trans
          (format_writers upperTable now₁ s.logger level msg false).2
      · rw [← hf]
        exact ((format_writers upperTable now₂ _ level msg true).1).trans
          (format_writers upperTable now₁ s.logger level msg false).1
  | resetTimer => exact ⟨_, rfl, rfl, rfl⟩
  | debug now v =>
    refine ⟨_, ToScreen_of_some upperTable now s "DEBUG" (sdump v) sw h, ?_, ?_⟩
    · exact (format_writers upperTable now s.logger "DEBUG" (sdump v) true).2
    · exact (format_writers upperTable now s.logger "DEBUG" (sdump v) true).1

/-- A sequence of calls on a logger with its screen writer returns, and leaves
both writers as they were. -/
theorem runCalls_writers {Val : Type} (upperTable : Char → Char) (sdump : List Val → String)
    (calls : List (Call Val)) : ∀ (s : State) (sw : LogLogger),
    s.logger.screenLogger = some sw →
    ∃ s', runCalls upperTable sdump calls s = .returns s'
      ∧ s'.logger.screenLogger = s.logger.screenLogger
      ∧ s'.logger.fileLogger = s.logger.fileLogger := by
  induction calls with
  | nil => intro s sw _; exact ⟨s, rfl, rfl, rfl⟩
  | cons c cs ih =>
    intro s sw h
    obtain ⟨s₁, hrun, hs₁, hf₁⟩ := Call_run_writers upperTable sdump c s sw h
    obtain ⟨s₂, hrest, hs₂, hf₂⟩ := ih s₁ sw (hs₁.trans h)
    refine ⟨s₂, ?_, hs₂.trans hs₁, hf₂.trans hf₁⟩
    simp only [runCalls, hrun, Exec.bind]
    exact hrest

/-- A `Logger` from `New` has its screen writer, and its file writer exactly when
the path is not empty. -/
theorem New_writers {FS E : Type} (OpenFile : FS → String → Nat → Nat → Except E File × FS)
    (fs : FS) (path : String) (l₀ : Logger) (h : (New OpenFile fs path).1 = .ok l₀) :
    l₀.screenLogger = some ⟨Output.stdout, "", Ldate ||| Ltime⟩
      ∧ (l₀.fileLogger = none ↔ path = "") := by
  unfold New at h
  simp only [] at h
  split_ifs at h with hp
  · split at h
    · simp at h
    · simp at h; subst h; simpa using hp
  · simp at h; subst h; simpa using hp

/-- C15: after a successful `New path`, every finite sequence of `ToFile`,
`ToScreen`, `ToBoth`, `ResetTimer` and `Debug` calls runs to its end, and in the
state it leaves both writers are the ones `New` built: the screen writer is
present, and the file writer is present exactly when the path was not empty. -/
theorem writers_invariant {FS E Val : Type}
    (OpenFile : FS → String → Nat → Nat → Except E File × FS) (fs : FS) (path : String)
    (upperTable : Char → Char) (sdump : List Val → String) (l₀ : Logger)
    (hnew : (New OpenFile fs path).1 = .ok l₀) (calls : List (Call Val)) :
    ∃ s', runCalls upperTable sdump calls ⟨l₀, []⟩ = .returns s'
      ∧ s'.logger.screenLogger = l₀.screenLogger
      ∧ s'.logger.fileLogger = l₀.fileLogger
      ∧ s'.logger.screenLogger ≠ none
      ∧ (s'.logger.fileLogger ≠ none ↔ path ≠ "") := by
  obtain ⟨hs, hf⟩ := New_writers OpenFile fs path l₀ hnew
  obtain ⟨s', hrun, hs', hf'⟩ :=
    runCalls_writers upperTable sdump calls ⟨l₀, []⟩ _ hs
  refine ⟨s', hrun, hs', hf', ?_, ?_⟩
  · rw [hs', hs]; simp
  · rw [hf']; exact not_congr hf

theorem writers_invariant_witness :
    ∃ s', runCalls id (fun v : List Nat => toString v)
        [Call.toBoth 1 2 "TIME" "a", Call.resetTimer, Call.debug 3 [7], Call.toFile 4 "x" "y",
          Call.toScreen 5 "info" "z"]
        ⟨⟨some ⟨Output.file ⟨3, "app.log"⟩, "", Ldate ||| Ltime ||| Lshortfile⟩,
          some ⟨Output.stdout, "", Ldate ||| Ltime⟩, 0⟩, []⟩ = .returns s'
      ∧ s'.logger.screenLogger = some ⟨Output.stdout, "", Ldate ||| Ltime⟩
      ∧ s'.logger.fileLogger
          = some ⟨Output.file ⟨3, "app.log"⟩, "", Ldate ||| Ltime ||| Lshortfile⟩
      ∧ s'.logger.screenLogger ≠ none
      ∧ (s'.logger.fileLogger ≠ none ↔ "app.log" ≠ "") :=
  writers_invariant exampleOpenFile [] "app.log" id (fun v : List Nat => toString v)
    ⟨some ⟨Output.file ⟨3, "app.log"⟩, "", Ldate ||| Ltime ||| Lshortfile⟩,
      some ⟨Output.stdout, "", Ldate ||| Ltime⟩, 0⟩ rfl _

/-! ## Debug -/

theorem format_DEBUG (upperTable : Char → Char) (now : Int) (l : Logger) (m : String) :
    format upperTable now l "DEBUG" m true = ("\x1b[94m [DEBUG]\x1b[0m" ++ " " ++ m, l) := by
  simp [format, ToUpper_DEBUG, Blue, Reset]

/-- C16: on every logger with its screen writer (with or without a file writer)
`Debug` prints exactly one line through the screen writer: the trimmed coloured
DEBUG `format` of the dump of the values, which begins with the blue-wrapped
` [DEBUG]`. Nothing is printed through the file writer and the logger, timer
baseline included, is unchanged. -/
theorem Debug_effect {Val : Type} (upperTable : Char → Char) (sdump : List Val → String)
    (now : Int) (s : State) (v : List Val) (sw : LogLogger)
    (hscreen : s.logger.screenLogger = some sw) :
    ∃ e : String,
      Debug upperTable sdump now s v
          = .returns { logger := s.logger, printed := s.printed ++ [⟨Sink.screen, e⟩] }
        ∧ e = TrimSpace (format upperTable now s.logger "DEBUG" (sdump v) true).1
        ∧ e = TrimSpace ("\x1b[94m [DEBUG]\x1b[0m" ++ " " ++ sdump v)
        ∧ ("\x1b[94m [DEBUG]\x1b[0m").data <+: e.data
        ∧ screenLines (s.printed ++ [⟨Sink.screen, e⟩]) = screenLines s.printed ++ [e]
        ∧ fileLines (s.printed ++ [⟨Sink.screen, e⟩]) = fileLines s.printed
        ∧ (Debug upperTable sdump now s v).final.logger.startTime = s.logger.startTime := by
  have hf := format_DEBUG upperTable now s.logger (sdump v)
  have hrun : Debug upperTable sdump now s v
      = .returns { logger := s.logger, printed := s.printed ++ [⟨Sink.screen,
          TrimSpace (format upperTable now s.logger "DEBUG" (sdump v) true).1⟩] } := by
    unfold Debug
    rw [ToScreen_of_some upperTable now s "DEBUG" (sdump v) sw hscreen, hf]
  refine ⟨_, hrun, rfl, ?_, ?_, ?_, ?_, ?_⟩
  · rw [hf]
  · rw [hf, String.append_assoc]
    rw [(TrimSpace_append "\x1b[94m [DEBUG]\x1b[0m" (" " ++ sdump v) '\x1b' 'm' rfl (by decide)
      rfl (by decide)).1]
    exact List.prefix_append _ _
  · simp [screenLines]
  · simp [fileLines]
  · rw [hrun]; rfl

theorem Debug_effect_witness :
    ∃ e : String,
      Debug id (fun v : List Nat => toString v) 0
          ⟨⟨none, some ⟨Output.stdout, "", 3⟩, 8⟩, []⟩ [1, 2]
          = .returns { logger := ⟨none, some ⟨Output.stdout, "", 3⟩, 8⟩,
                       printed := [] ++ [⟨Sink.screen, e⟩] }
        ∧ e = TrimSpace (format id 0 ⟨none, some ⟨Output.stdout, "", 3⟩, 8⟩ "DEBUG"
            (toString [1, 2]) true).1
        ∧ e = TrimSpace ("\x1b[94m [DEBUG]\x1b[0m" ++ " " ++ toString [1, 2])
        ∧ ("\x1b[94m [DEBUG]\x1b[0m").data <+: e.data
        ∧ screenLines ([] ++ [⟨Sink.screen, e⟩]) = screenLines [] ++ [e]
        ∧ fileLines ([] ++ [⟨Sink.screen, e⟩]) = fileLines []
        ∧ (Debug id (fun v : List Nat => toString v) 0
            ⟨⟨none, some ⟨Output.stdout, "", 3⟩, 8⟩, []⟩ [1, 2]).final.logger.startTime
          = (⟨⟨none, some ⟨Output.stdout, "", 3⟩, 8⟩, []⟩ : State).logger.startTime :=
  Debug_effect id (fun v : List Nat => toString v) 0
    ⟨⟨none, some ⟨Output.stdout, "", 3⟩, 8⟩, []⟩ [1, 2] ⟨Output.stdout, "", 3⟩ rfl

/-! ## ToBoth at the level TIME -/

/-- A string that starts and ends with characters that are not white space is
its own trimming. -/
theorem TrimSpace_eq_self (p : String) (c₁ c₂ : Char) (h₁ : p.data.head? = some c₁)
    (hc₁ : IsSpace c₁ = false) (h₂ : p.data.getLast? = some c₂) (hc₂ : IsSpace c₂ = false) :
    TrimSpace p = p := by
  have h := (TrimSpace_append p "" c₁ c₂ h₁ hc₁ h₂ hc₂).1
  have hp : p ++ "" = p := by
    apply String.ext; simp
  rw [hp] at h
  apply String.ext
  simpa using h

/-- C17: `ToBoth "TIME" m` reads the stopwatch twice when there is a file
writer. With the baseline unset and the first clock reading `now₁` (not the zero
time), the file line is `[TIMING] m (start)` and the screen line is the
green-wrapped `[TIMING]`, the message and ` (+d)`, where `d` is the time from
`now₁` to the second reading `now₂` as `time.Since` gives it, truncated to
milliseconds; the two message texts differ, and the baseline stays at `now₁`.
Without a file writer the screen line ends with ` (start)` instead. -/
theorem ToBoth_TIME (upperTable : Char → Char) (now₁ now₂ : Int) (s : State) (m : String)
    (sw : LogLogger) (hscreen : s.logger.screenLogger = some sw)
    (hbase : s.logger.startTime = 0) (hnow : now₁ ≠ 0) :
    (∀ fw, s.logger.fileLogger = some fw →
        ToBoth upperTable now₁ now₂ s "TIME" m
            = .returns
                { logger := { s.logger with startTime := now₁ }
                  printed := s.printed ++
                    [⟨Sink.file, "[TIMING] " ++ m ++ " (start)"⟩,
                     ⟨Sink.screen, "\x1b[32m[TIMING]\x1b[0m " ++ m ++ " (+"
                        ++ Duration.String (Truncate (Since now₂ now₁) Millisecond) ++ ")"⟩] }
          ∧ m ++ " (start)" ≠ m ++ " (+"
              ++ Duration.String (Truncate (Since now₂ now₁) Millisecond) ++ ")"
          ∧ (now₁ ≤ now₂ → now₂ - now₁ ≤ 9223372036854775807 →
              Truncate (Since now₂ now₁) Millisecond = (now₂ - now₁) / 1000000 * 1000000))
      ∧ (s.logger.fileLogger = none →
          ToBoth upperTable now₁ now₂ s "TIME" m
            = .returns
                { logger := { s.logger with startTime := now₂ }
                  printed := s.printed ++
                    [⟨Sink.screen, "\x1b[32m[TIMING]\x1b[0m " ++ m ++ " (start)"⟩] }) := by
  have hstart : ∀ (t : Int) (c : Bool), format upperTable t s.logger "TIME" m c
      = ((if c then "\x1b[32m[TIMING]\x1b[0m" else "[TIMING]") ++ " " ++ m ++ " (start)",
          { s.logger with startTime := t }) := by
    intro t c
    cases c <;> simp [format, ToUpper_TIME, IsZero, hbase, Green, Reset, String.append_assoc]
  constructor
  · intro fw hfile
    refine ⟨?_, ?_, ?_⟩
    · rw [ToBoth_of_some upperTable now₁ now₂ s "TIME" m fw sw hfile hscreen, hstart now₁ false]
      rw [format_time_of_set upperTable _ m true now₂ (by simpa using hnow)]
      have ht : ∀ x : String, TrimSpace ("\x1b[32m[TIMING]\x1b[0m " ++ m ++ " (+" ++ x ++ ")")
          = "\x1b[32m[TIMING]\x1b[0m " ++ m ++ " (+" ++ x ++ ")" := by
        intro x
        apply TrimSpace_eq_self _ '\x1b' ')' _ (by decide) _ (by decide)
        · simp [String.data_append]
        · exact List.getLast?_eq_some_iff.mpr
            ⟨("\x1b[32m[TIMING]\x1b[0m " ++ m ++ " (+" ++ x).data, by simp [String.data_append]⟩
      simp [String.append_assoc] at ht ⊢
      exact ht _
    · intro h
      have := congrArg String.data h
      simp [String.data_append] at this
    · intro hle hfit
      rw [Since_of_le _ _ hle, min_eq_left hfit, Truncate_ms_of_nonneg _ (by omega)]
  · intro hfile
    rw [ToBoth_of_none upperTable now₁ now₂ s "TIME" m sw hfile hscreen, hstart now₂ true]
    have ht : TrimSpace ("\x1b[32m[TIMING]\x1b[0m " ++ m ++ " (start)")
        = "\x1b[32m[TIMING]\x1b[0m " ++ m ++ " (start)" := by
      apply TrimSpace_eq_self _ '\x1b' ')' _ (by decide) _ (by decide)
      · simp [String.data_append]
      · exact List.getLast?_eq_some_iff.mpr
          ⟨("\x1b[32m[TIMING]\x1b[0m " ++ m ++ " (start").data, by simp [String.data_append]⟩
    simp [String.append_assoc] at ht ⊢
    exact ht



theorem ToBoth_TIME_witness :
    ToBoth id 1000 2500000 ⟨⟨some ⟨Output.file ⟨3, "app.log"⟩, "", 19⟩,
        some ⟨Output.stdout, "", 3⟩, 0⟩, []⟩ "TIME" "load"
      = .returns
          { logger := { (⟨some ⟨Output.file ⟨3, "app.log"⟩, "", 19⟩,
              some ⟨Output.stdout, "", 3⟩, 0⟩ : Logger) with startTime := 1000 }
            printed := [] ++
              [⟨Sink.file, "[TIMING] " ++ "load" ++ " (start)"⟩,
               ⟨Sink.screen, "\x1b[32m[TIMING]\x1b[0m " ++ "load" ++ " (+"
                  ++ Duration.String (Truncate (Since 2500000 (1000 : Int)) Millisecond)
                  ++ ")"⟩] } :=
  ((ToBoth_TIME id 1000 2500000 ⟨⟨some ⟨Output.file ⟨3, "app.log"⟩, "", 19⟩,
    some ⟨Output.stdout, "", 3⟩, 0⟩, []⟩ "load" ⟨Output.stdout, "", 3⟩ rfl rfl (by decide)).1
    ⟨Output.file ⟨3, "app.log"⟩, "", 19⟩ rfl).1

/-! ## What trimming does to the screen line -/

/-- The coloured `format` of a recognized level is the colour escape, the prefix,
the reset escape and a space, followed by the rest. -/
theorem format_colour_shape (upperTable : Char → Char) (now : Int) (l : Logger)
    (level msg : String)
    (h : ToUpper upperTable level ∈ ["INFO", "WARN", "ERROR", "FATAL", "DEBUG", "TIME"]) :
    ∃ C P r : String,
      (ToUpper upperTable level, C, P) ∈ [("INFO", "\x1b[36m", "  [INFO]"),
        ("WARN", "\x1b[33m", "  [WARN]"), ("ERROR", "\x1b[31m", " [ERROR]"),
        ("FATAL", "\x1b[31m", " [FATAL]"), ("DEBUG", "\x1b[94m", " [DEBUG]"),
        ("TIME", "\x1b[32m", "[TIMING]")]
      ∧ (format upperTable now l level msg true).1 = C ++ P ++ "\x1b[0m" ++ " " ++ r := by
  simp only [List.mem_cons, List.mem_singleton, List.not_mem_nil, or_false] at h
  rcases h with h | h | h | h | h | h
  · exact ⟨"\x1b[36m", "  [INFO]", msg, by simp [h], by simp [format, h, Cyan, Reset]⟩
  · exact ⟨"\x1b[33m", "  [WARN]", msg, by simp [h], by simp [format, h, Yellow, Reset]⟩
  · exact ⟨"\x1b[31m", " [ERROR]", msg, by simp [h], by simp [format, h, Red, Reset]⟩
  · exact ⟨"\x1b[31m", " [FATAL]", msg, by simp [h], by simp [format, h, Red, Reset]⟩
  · exact ⟨"\x1b[94m", " [DEBUG]", msg, by simp [h], by simp [format, h, Blue, Reset]⟩
  · by_cases hz : l.startTime = 0
    · exact ⟨"\x1b[32m", "[TIMING]", msg ++ " (start)", by simp [h], by
        simp [format, h, IsZero, hz, Green, Reset]⟩
    · exact ⟨"\x1b[32m", "[TIMING]", msg ++ " (+"
        ++ Duration.String (Truncate (Since now l.startTime) Millisecond) ++ ")", by simp [h], by
        simp [format, h, IsZero, hz, Green, Reset]⟩

/-- Every coloured prefix starts with the escape character and ends with `m`. -/
theorem colour_prefix_ends (U C P : String)
    (h : (U, C, P) ∈ [("INFO", "\x1b[36m", "  [INFO]"),
        ("WARN", "\x1b[33m", "  [WARN]"), ("ERROR", "\x1b[31m", " [ERROR]"),
        ("FATAL", "\x1b[31m", " [FATAL]"), ("DEBUG", "\x1b[94m", " [DEBUG]"),
        ("TIME", "\x1b[32m", "[TIMING]")]) :
    (C ++ P ++ "\x1b[0m").data.head? = some '\x1b'
      ∧ (C ++ P ++ "\x1b[0m").data.getLast? = some 'm' := by
  simp only [List.mem_cons, Prod.mk.injEq, List.mem_singleton, List.not_mem_nil, or_false] at h
  rcases h with ⟨_, rfl, rfl⟩ | ⟨_, rfl, rfl⟩ | ⟨_, rfl, rfl⟩ | ⟨_, rfl, rfl⟩ |
    ⟨_, rfl, rfl⟩ | ⟨_, rfl, rfl⟩ <;> exact ⟨rfl, rfl⟩

/-- C18: on a logger with its screen writer, at each of the six recognized levels
the coloured `format` begins with the escape character, so the screen line is
that string with trailing white space removed only, and it still begins with the
colour escape, the prefix with its padding and the reset escape (for example
the red-wrapped ` [ERROR]` followed by ` x`). At an unrecognized level the three
leading spaces of `   [LOG]` are removed and the screen line begins with
`[LOG]`. -/
theorem ToScreen_trim (upperTable : Char → Char) (now : Int) (s : State) (level msg : String)
    (sw : LogLogger) (hscreen : s.logger.screenLogger = some sw) :
    (ToUpper upperTable level ∈ ["INFO", "WARN", "ERROR", "FATAL", "DEBUG", "TIME"] →
        ∃ e C P : String,
          ToScreen upperTable now s level msg
              = .returns { logger := (format upperTable now s.logger level msg true).2
                           printed := s.printed ++ [⟨Sink.screen, e⟩] }
            ∧ (format upperTable now s.logger level msg true).1.data.head? = some '\x1b'
            ∧ e.data = List.rdropWhile IsSpace (format upperTable now s.logger level msg true).1.data
            ∧ (ToUpper upperTable level, C, P) ∈ [("INFO", "\x1b[36m", "  [INFO]"),
                ("WARN", "\x1b[33m", "  [WARN]"), ("ERROR", "\x1b[31m", " [ERROR]"),
                ("FATAL", "\x1b[31m", " [FATAL]"), ("DEBUG", "\x1b[94m", " [DEBUG]"),
                ("TIME", "\x1b[32m", "[TIMING]")]
            ∧ (C ++ P ++ "\x1b[0m").data <+: e.data)
      ∧ ToScreen upperTable now s "ERROR" "x"
          = .returns { logger := s.logger
                       printed := s.printed ++ [⟨Sink.screen, "\x1b[31m [ERROR]\x1b[0m x"⟩] }
      ∧ (ToUpper upperTable level ∉ ["INFO", "WARN", "ERROR", "FATAL", "DEBUG", "TIME"] →
        ∃ e : String,
          ToScreen upperTable now s level msg
              = .returns { logger := s.logger, printed := s.printed ++ [⟨Sink.screen, e⟩] }
            ∧ (format upperTable now s.logger level msg true).1 = "   " ++ ("[LOG]" ++ " " ++ msg)
            ∧ e.data = List.rdropWhile IsSpace ("[LOG]" ++ " " ++ msg).data
            ∧ "[LOG]".data <+: e.data) := by
  refine ⟨?_, ?_, ?_⟩
  · intro h
    obtain ⟨C, P, r, hmem, hf⟩ := format_colour_shape upperTable now s.logger level msg h
    obtain ⟨hh, hl⟩ := colour_prefix_ends _ C P hmem
    have hk := TrimSpace_append (C ++ P ++ "\x1b[0m") (" " ++ r) '\x1b' 'm' hh (by decide) hl
      (by decide)
    rw [← String.append_assoc, ← hf] at hk
    refine ⟨_, C, P, ToScreen_of_some upperTable now s level msg sw hscreen, ?_, hk.2, hmem, ?_⟩
    · obtain ⟨t, ht⟩ := List.head?_eq_some_iff.mp hh
      rw [hf, String.append_assoc, String.data_append, ht]
      rfl
    · rw [hk.1]
      exact List.prefix_append _ _
  · rw [ToScreen_of_some upperTable now s "ERROR" "x" sw hscreen]
    have hf : format upperTable now s.logger "ERROR" "x" true
        = ("\x1b[31m [ERROR]\x1b[0m x", s.logger) := by
      simp [format, ToUpper_ERROR, Red, Reset]
    have ht : TrimSpace "\x1b[31m [ERROR]\x1b[0m x" = "\x1b[31m [ERROR]\x1b[0m x" := by decide
    simp [hf, ht]
  · intro h
    have hf : format upperTable now s.logger level msg true
        = ("   " ++ ("[LOG]" ++ " " ++ msg), s.logger) := by
      simp only [List.mem_cons, List.mem_singleton, List.not_mem_nil, or_false, not_or] at h
      obtain ⟨h1, h2, h3, h4, h5, h6⟩ := h
      simp [format, h1, h2, h3, h4, h5, h6]
      rw [← String.append_assoc]
      rfl
    have htrim : TrimSpace ("   " ++ ("[LOG]" ++ " " ++ msg)) = TrimSpace ("[LOG]" ++ " " ++ msg) :=
      TrimSpace_leading "   " _ (by decide)
    have hkeep := TrimSpace_append "[LOG]" (" " ++ msg) '[' ']' rfl (by decide) rfl (by decide)
    rw [← String.append_assoc] at hkeep
    refine ⟨TrimSpace ("[LOG]" ++ " " ++ msg), ?_, by rw [hf], hkeep.2, ?_⟩
    · rw [ToScreen_of_some upperTable now s level msg sw hscreen, hf, htrim]
    · rw [hkeep.1]
      exact List.prefix_append _ _

theorem ToScreen_trim_witness :
    ToScreen id 0 ⟨⟨none, some ⟨Output.stdout, "", 3⟩, 0⟩, []⟩ "ERROR" "x"
      = .returns { logger := ⟨none, some ⟨Output.stdout, "", 3⟩, 0⟩
                   printed := [] ++ [⟨Sink.screen, "\x1b[31m [ERROR]\x1b[0m x"⟩] } :=
  (ToScreen_trim id 0 ⟨⟨none, some ⟨Output.stdout, "", 3⟩, 0⟩, []⟩ "ERROR" "x"
    ⟨Output.stdout, "", 3⟩ rfl).2.1

end goLog
